import Mathlib

/-!
Verification of the Ghoul model import and binary-cache pipeline
(`src/io/model/modelreaderassimp.cpp`) against its specification.

The C++ code is shallowly embedded: `float` values are modelled as exact
rationals (`Rat`), machine integers as `Nat`/`Int` with explicit wrap-around
where the code converts between widths, the binary cache stream as a list of
typed cells (one cell per `fileStream.read`/`write` unit), and the mutable
texture-storage vector as explicit state threaded through the functions.
Pointers into the texture storage are modelled as indices: the storage is
append-only during one import, so an index is a stable identity, and a
pointer dereference (`texture->name()`) becomes a lookup through the storage.
-/

namespace Ghoul

deriving instance DecidableEq for Except

/-- glm two-component float vector. -/
structure Vec2 where
  x : Rat
  y : Rat
deriving DecidableEq, Repr, Inhabited

/-- glm three-component float vector. -/
structure Vec3 where
  x : Rat
  y : Rat
  z : Rat
deriving DecidableEq, Repr, Inhabited

/-- glm four-component float vector. -/
structure Vec4 where
  x : Rat
  y : Rat
  z : Rat
  w : Rat
deriving DecidableEq, Repr, Inhabited

/-- glm `uvec3` (texture dimensions). -/
structure UVec3 where
  x : Nat
  y : Nat
  z : Nat
deriving DecidableEq, Repr, Inhabited

/-- glm column-major 4x4 matrix: four columns, as constructed at
`modelreaderassimp.cpp:499`. -/
structure Mat4 where
  c0 : Vec4
  c1 : Vec4
  c2 : Vec4
  c3 : Vec4
deriving DecidableEq, Repr, Inhabited

/-- Scale a `Vec4` by a scalar. -/
def Vec4.smul (a : Rat) (v : Vec4) : Vec4 :=
  ⟨a * v.x, a * v.y, a * v.z, a * v.w⟩

/-- Componentwise sum of two `Vec4`. -/
def Vec4.add (u v : Vec4) : Vec4 :=
  ⟨u.x + v.x, u.y + v.y, u.z + v.z, u.w + v.w⟩

/-- glm matrix-vector product `m * v` (columns weighted by the components
of `v`). -/
def Mat4.mulVec (m : Mat4) (v : Vec4) : Vec4 :=
  Vec4.add (Vec4.smul v.x m.c0)
    (Vec4.add (Vec4.smul v.y m.c1)
      (Vec4.add (Vec4.smul v.z m.c2) (Vec4.smul v.w m.c3)))

/-- glm matrix product `a * b`: each column of the result is `a` applied to
the corresponding column of `b`. -/
def Mat4.mul (a b : Mat4) : Mat4 :=
  ⟨a.mulVec b.c0, a.mulVec b.c1, a.mulVec b.c2, a.mulVec b.c3⟩

/-- The identity matrix. With `GLM_FORCE_CTOR_INIT` defined in
`include/ghoul/glm.h`, the default-constructed `glm::mat4x4 rootTransform` of
`loadModel` is this matrix. -/
def Mat4.identity : Mat4 :=
  ⟨⟨1, 0, 0, 0⟩, ⟨0, 1, 0, 0⟩, ⟨0, 0, 1, 0⟩, ⟨0, 0, 0, 1⟩⟩

/-- `ghoul::opengl::Texture::Format`, restricted to the cases handled by
`stringToFormat` / `formatToString`. -/
inductive TexFormat where
  | Red
  | RG
  | RGB
  | BGR
  | RGBA
  | BGRA
  | DepthComponent
deriving DecidableEq, Repr, Inhabited

/-- The GL data types handled by `stringToDataType` / `dataTypeToString`. -/
inductive GLDataType where
  | glByte
  | glUnsignedByte
  | glShort
  | glUnsignedShort
  | glInt
  | glUnsignedInt
  | glFloat
  | glDouble
deriving DecidableEq, Repr, Inhabited

/-- Model of `ghoul::opengl::Texture` as used by this pipeline: a named pixel
buffer with its descriptive metadata.  `pixels` is the raw pixel byte buffer
(`pixelData()` / `setPixelData`, with `expectedPixelDataSize` = its length);
`alphas` models the per-texel alpha channel as seen through
`texelAsFloat(vec2(j, k)).a` (row `j`, column `k`), which is derived from the
pixel buffer by the external texture class and is only inspected by the
transparency scan of the import path. -/
structure Texture where
  name : String
  dimensions : UVec3
  format : TexFormat
  internalFormat : Nat
  dataType : GLDataType
  pixels : List Nat
  alphas : List (List Rat)
deriving DecidableEq, Repr, Inhabited

/-- `texelAsFloat(glm::vec2(j, k)).a` of the transparency scan. -/
def Texture.alphaAt (t : Texture) (j k : Nat) : Rat :=
  (t.alphas.getD j []).getD k 0

/-- `Texture::setName`. -/
def Texture.setName (t : Texture) (n : String) : Texture :=
  { t with name := n }

/-- `modelgeometry::ModelGeometry::TextureEntry`: one storage-pool entry. -/
structure TextureEntry where
  name : String
  texture : Texture
deriving DecidableEq, Repr, Inhabited

/-- `ModelMesh::Vertex`: position (4 floats, homogeneous), normal (3),
texture coordinate (2), tangent (3). -/
structure ModelMesh.Vertex where
  location : Vec4
  normal : Vec3
  tex : Vec2
  tangent : Vec3
deriving DecidableEq, Repr, Inhabited

/-- `ModelMesh::Texture`, the mesh-local texture descriptor.  The `texture`
pointer into the storage pool is modelled as an index (`none` = `nullptr`).
Modelled from the spec: the defining header `modelmesh.h` is not among the
sources, so the field defaults follow the descriptor invariant of spec §3
(no texture reference and both flags off unless a code path sets them). -/
structure ModelMesh.Texture where
  texture : Option Nat := none
  type : String := ""
  hasTexture : Bool := false
  useForcedColor : Bool := false
  color : Vec3 := ⟨0, 0, 0⟩
deriving DecidableEq, Repr, Inhabited

/-- `ModelMesh`: one flattened renderer-ready mesh. -/
structure ModelMesh where
  vertices : List ModelMesh.Vertex
  indices : List Nat
  textures : List ModelMesh.Texture
deriving DecidableEq, Repr, Inhabited

/-- `modelgeometry::ModelGeometry`: flattened mesh list plus shared texture
storage. -/
structure ModelGeometry where
  meshes : List ModelMesh
  textureStorage : List TextureEntry
deriving DecidableEq, Repr, Inhabited

/-- The name of the texture object a descriptor points to: the C++
dereference `t.texture->name()`, read through the storage pool. -/
def pointeeName (storage : List TextureEntry) (t : ModelMesh.Texture) : String :=
  match t.texture with
  | some i => ((storage.getD i default).texture).name
  | none => ""

/-- An RGBA color attribute (`aiColor4D`). -/
structure Color4 where
  r : Rat
  g : Rat
  b : Rat
  a : Rat
deriving DecidableEq, Repr, Inhabited

/-- `aiColor4D::IsBlack` (exact comparison of the RGB components). -/
def Color4.IsBlack (c : Color4) : Bool :=
  c.r == 0 && c.g == 0 && c.b == 0

/-- `aiColor3D::IsBlack`. -/
def Vec3.IsBlack (c : Vec3) : Bool :=
  c.x == 0 && c.y == 0 && c.z == 0

/-- One `aiFace`: its index list. -/
structure aiFace where
  mIndices : List Nat
deriving DecidableEq, Repr, Inhabited

/-- An embedded `aiTexture`: `mHeight == 0` marks compressed data of
`mWidth` bytes in `pcData` with format hint `achFormatHint`. -/
structure aiTexture where
  mWidth : Nat
  mHeight : Nat
  pcData : List Nat
  achFormatHint : String
deriving DecidableEq, Repr, Inhabited

/-- The three material channels the reader resolves. -/
inductive aiTextureType where
  | Diffuse
  | Specular
  | Normals
deriving DecidableEq, Repr, Inhabited

/-- The slice of `aiMaterial` the reader consults: per-channel texture path
lists, the opacity attribute, and the flat color attributes.  Each `Get`
call on the external material is modelled by an `Option` field (`none` =
the property query does not return `AI_SUCCESS`). -/
structure aiMaterial where
  diffuseTextures : List String := []
  specularTextures : List String := []
  normalsTextures : List String := []
  opacity : Option Rat := none
  colorDiffuse4 : Option Color4 := none
  colorDiffuse3 : Option Vec3 := none
  colorSpecular4 : Option Color4 := none
  colorSpecular3 : Option Vec3 := none
deriving DecidableEq, Repr, Inhabited

/-- `GetTextureCount`/`GetTexture` for a channel: the path list. -/
def aiMaterial.texturesOf (m : aiMaterial) : aiTextureType → List String
  | .Diffuse => m.diffuseTextures
  | .Specular => m.specularTextures
  | .Normals => m.normalsTextures

/-- The slice of `aiMesh` the reader consults.  The optional arrays model
`HasNormals()`, `HasTextureCoords(0)` and `HasTangentsAndBitangents()`. -/
structure aiMesh where
  mVertices : List Vec3 := []
  mNormals : Option (List Vec3) := none
  mTextureCoords0 : Option (List Vec2) := none
  mTangents : Option (List Vec3) := none
  mFaces : List aiFace := []
  mMaterialIndex : Nat := 0
  mName : String := ""
deriving DecidableEq, Repr, Inhabited

/-- One `aiNode`: local transform, owned mesh indices, children. -/
inductive aiNode where
  | mk (mTransformation : Mat4) (mMeshes : List Nat) (mChildren : List aiNode)

/-- The slice of `aiScene` the reader consults.  `embedded` models
`GetEmbeddedTexture` as an association list keyed by texture path. -/
structure aiScene where
  mMeshes : List aiMesh := []
  mMaterials : List aiMaterial := []
  embedded : List (String × aiTexture) := []
  mRootNode : Option aiNode := none
  flagsIncomplete : Bool := false

/-- `aiScene::GetEmbeddedTexture`. -/
def aiScene.getEmbeddedTexture (s : aiScene) (path : String) : Option aiTexture :=
  (s.embedded.find? (fun p => p.fst == path)).map Prod.snd

/-- A request to the external texture-decoding service
(`TextureReader::loadTexture`): decode from memory or from a file path. -/
inductive TexLoadReq where
  | memory (data : List Nat) (size : Nat) (hint : String)
  | file (path : String)
deriving DecidableEq, Repr

/-- The recoverable failure conditions of the texture-decoding service:
`MissingReaderException` or `TextureLoadException`. -/
inductive TexLoadErr where
  | missingReader
  | loadFailed
deriving DecidableEq, Repr

/-- The external texture-decoding service, passed as an oracle. -/
abbrev TexLoader := TexLoadReq → Except TexLoadErr Texture

/-- Path resolution of a local texture against the model directory.
Modelled from the spec: `FileSystem::pathByAppendingComponent` and `absPath`
are not among the sources; §4.4 says local file data "is resolved against
the scene's base directory", modelled as appending the path component. -/
def joinPath (dir path : String) : String :=
  dir ++ "/" ++ path

/-- The texture-load attempt of `loadMaterialTextures`
(`modelreaderassimp.cpp:107-218`): embedded compressed data goes to the
decoder, embedded uncompressed data is an unsupported-format failure without
consulting the decoder, and anything else is loaded as a local file.  All
three failure shapes lead to the same forced-color fallback, so the error
detail is collapsed. -/
def attemptLoad (loader : TexLoader) (scene : aiScene) (modelDirectory path : String) :
    Except Unit Texture :=
  match scene.getEmbeddedTexture path with
  | some t =>
    if t.mHeight == 0 then
      match loader (TexLoadReq.memory t.pcData t.mWidth t.achFormatHint) with
      | .ok tex => .ok tex
      | .error _ => .error ()
    else
      .error ()
  | none =>
    match loader (TexLoadReq.file (joinPath modelDirectory path)) with
    | .ok tex => .ok tex
    | .error _ => .error ()

/-- The transparency scan of `modelreaderassimp.cpp:220-233`: `isOpague`
becomes true as soon as some texel in the `dimensions().x` by
`dimensions().y` grid has non-zero alpha. -/
def isOpague (t : Texture) : Bool :=
  (List.range t.dimensions.x).any fun j =>
    (List.range t.dimensions.y).any fun k => t.alphaAt j k != 0

/-- The forced-color fallback descriptor pushed on a texture load failure
(`modelreaderassimp.cpp:133-137` and its three twins). -/
def forcedColorTexture : ModelMesh.Texture :=
  { texture := none, hasTexture := false, useForcedColor := true
    type := "color_diffuse" }

/-- The duplicate check against the current mesh's texture list
(`modelreaderassimp.cpp:69-82`): some already-collected descriptor with
`hasTexture` points at a texture whose name equals `path`. -/
def meshHasTexture (storage : List TextureEntry) (arr : List ModelMesh.Texture)
    (path : String) : Bool :=
  arr.any fun t => t.hasTexture && (pointeeName storage t == path)

/-- The scan of the global texture storage for an entry with a given name
(`modelreaderassimp.cpp:89-100` and `modelreaderassimp.cpp:1137-1150`):
index of the first entry whose name compares equal. -/
def findEntryIdx (storage : List TextureEntry) (nm : String) : Option Nat :=
  match storage with
  | [] => none
  | e :: rest =>
    if e.name == nm then some 0
    else (findEntryIdx rest nm).map (· + 1)

/-- `entry.texture->setName(path)` applied to the storage entry at index
`j` (`modelreaderassimp.cpp:94`; the pointer aliases the storage entry's
texture object). -/
def setEntryTexName (storage : List TextureEntry) (j : Nat) (path : String) :
    List TextureEntry :=
  match storage[j]? with
  | some e => storage.set j { e with texture := e.texture.setName path }
  | none => storage

/-- The body of the texture loop of `loadMaterialTextures`
(`modelreaderassimp.cpp:62-243`), one recursive step per texture reference
of the channel.  Returns the C++ function's `bool` result together with the
final mesh texture list and storage pool. -/
def loadTexturesLoop (loader : TexLoader) (scene : aiScene) (typeString : String)
    (modelDirectory : String) :
    List String → List ModelMesh.Texture → List TextureEntry →
    Bool × List ModelMesh.Texture × List TextureEntry
  | [], arr, storage => (true, arr, storage)
  | path :: rest, arr, storage =>
    if meshHasTexture storage arr path then
      -- Texture already loaded for this mesh, continue to the next one
      loadTexturesLoop loader scene typeString modelDirectory rest arr storage
    else
      match findEntryIdx storage path with
      | some j =>
        -- Already in the storage: point to that entry instead of copying
        let storageA := setEntryTexName storage j path
        let mt : ModelMesh.Texture :=
          { texture := some j, type := typeString, hasTexture := true }
        loadTexturesLoop loader scene typeString modelDirectory rest
          (arr ++ [mt]) storageA
      | none =>
        match attemptLoad loader scene modelDirectory path with
        | .error _ =>
          -- Load failure of any kind: forced-color fallback, abort channel
          (false, arr ++ [forcedColorTexture], storage)
        | .ok tex0 =>
          let tex := tex0.setName path
          let entry : TextureEntry := { name := path, texture := tex }
          if isOpague tex then
            let mt : ModelMesh.Texture :=
              { texture := some storage.length, type := typeString
                hasTexture := true }
            loadTexturesLoop loader scene typeString modelDirectory rest
              (arr ++ [mt]) (storage ++ [entry])
          else
            -- Entire texture transparent: do not add it
            loadTexturesLoop loader scene typeString modelDirectory rest arr storage

/-- `loadMaterialTextures` (`modelreaderassimp.cpp:56-245`). -/
def loadMaterialTextures (loader : TexLoader) (scene : aiScene)
    (material : aiMaterial) (type : aiTextureType) (typeString : String)
    (textureArray : List ModelMesh.Texture) (textureStorage : List TextureEntry)
    (modelDirectory : String) :
    Bool × List ModelMesh.Texture × List TextureEntry :=
  loadTexturesLoop loader scene typeString modelDirectory
    (material.texturesOf type) textureArray textureStorage

/-- Vertex construction of `processMesh` (`modelreaderassimp.cpp:258-319`):
the raw position is transformed by the supplied matrix with homogeneous
coordinate 1; normals, texture coordinates and tangents default to zero
when the source arrays are absent. -/
def processVertices (mesh : aiMesh) (transform : Mat4) : List ModelMesh.Vertex :=
  (List.range mesh.mVertices.length).map fun i =>
    let v := mesh.mVertices.getD i default
    { location := transform.mulVec ⟨v.x, v.y, v.z, 1⟩
      normal :=
        match mesh.mNormals with
        | some ns => ns.getD i default
        | none => ⟨0, 0, 0⟩
      tex :=
        match mesh.mTextureCoords0 with
        | some ts => ts.getD i default
        | none => ⟨0, 0⟩
      tangent :=
        match mesh.mTangents with
        | some ts => ts.getD i default
        | none => ⟨0, 0, 0⟩ }

/-- Index construction of `processMesh` (`modelreaderassimp.cpp:321-331`):
the faces' index lists, flattened in order. -/
def processIndices (mesh : aiMesh) : List Nat :=
  (mesh.mFaces.map aiFace.mIndices).flatten

/-- The diffuse flat-color fallback (`modelreaderassimp.cpp:378-407`):
4-component color attribute first (skipped if fully transparent), then the
3-component variant. -/
def diffuseColorFallback (material : aiMaterial) : List ModelMesh.Texture :=
  match material.colorDiffuse4 with
  | some c4 =>
    if c4.a != 0 then
      [{ hasTexture := false, type := "color_diffuse", color := ⟨c4.r, c4.g, c4.b⟩ }]
    else
      []
  | none =>
    match material.colorDiffuse3 with
    | some c3 =>
      [{ hasTexture := false, type := "color_diffuse", color := c3 }]
    | none => []

/-- The specular flat-color fallback (`modelreaderassimp.cpp:429-458`):
as the diffuse one, but pure black colors are additionally rejected. -/
def specularColorFallback (material : aiMaterial) : List ModelMesh.Texture :=
  match material.colorSpecular4 with
  | some c4 =>
    if !c4.IsBlack then
      if c4.a != 0 then
        [{ hasTexture := false, type := "color_specular", color := ⟨c4.r, c4.g, c4.b⟩ }]
      else
        []
    else
      match material.colorSpecular3 with
      | some c3 =>
        if !c3.IsBlack then
          [{ hasTexture := false, type := "color_specular", color := c3 }]
        else
          []
      | none => []
  | none =>
    match material.colorSpecular3 with
    | some c3 =>
      if !c3.IsBlack then
        [{ hasTexture := false, type := "color_specular", color := c3 }]
      else
        []
    | none => []

/-- The diffuse channel block of `processMesh`
(`modelreaderassimp.cpp:358-407`): texture resolution when the material has
diffuse textures, flat-color fallback otherwise. -/
def diffuseStep (loader : TexLoader) (scene : aiScene) (material : aiMaterial)
    (storage : List TextureEntry) (dir : String) :
    Bool × List ModelMesh.Texture × List TextureEntry :=
  if material.diffuseTextures.length > 0 then
    loadMaterialTextures loader scene material .Diffuse "texture_diffuse"
      [] storage dir
  else
    (true, diffuseColorFallback material, storage)

/-- The specular channel block of `processMesh`
(`modelreaderassimp.cpp:409-458`). -/
def specularStep (loader : TexLoader) (scene : aiScene) (material : aiMaterial)
    (arr : List ModelMesh.Texture) (storage : List TextureEntry) (dir : String) :
    Bool × List ModelMesh.Texture × List TextureEntry :=
  if material.specularTextures.length > 0 then
    loadMaterialTextures loader scene material .Specular "texture_specular"
      arr storage dir
  else
    (true, arr ++ specularColorFallback material, storage)

/-- The normal channel block of `processMesh`
(`modelreaderassimp.cpp:460-479`): no flat-color fallback exists for
normals. -/
def normalStep (loader : TexLoader) (scene : aiScene) (material : aiMaterial)
    (arr : List ModelMesh.Texture) (storage : List TextureEntry) (dir : String) :
    Bool × List ModelMesh.Texture × List TextureEntry :=
  if material.normalsTextures.length > 0 then
    loadMaterialTextures loader scene material .Normals "texture_normal"
      arr storage dir
  else
    (true, arr, storage)

/-- `processMesh` (`modelreaderassimp.cpp:248-487`): vertex and index
buffers, then the opacity short-circuit, then the diffuse, specular and
normal channels in that order, each aborting the material resolution when
its texture load reports failure. -/
def processMesh (loader : TexLoader) (mesh : aiMesh) (scene : aiScene)
    (transform : Mat4) (textureStorage : List TextureEntry)
    (modelDirectory : String) : ModelMesh × List TextureEntry :=
  let vertexArray := processVertices mesh transform
  let indexArray := processIndices mesh
  let material := scene.mMaterials.getD mesh.mMaterialIndex default
  if material.opacity == some 0 then
    -- Fully transparent material: return with an empty texture list
    (⟨vertexArray, indexArray, []⟩, textureStorage)
  else
    match diffuseStep loader scene material textureStorage modelDirectory with
    | (false, arr, storage) => (⟨vertexArray, indexArray, arr⟩, storage)
    | (true, arr, storage) =>
      match specularStep loader scene material arr storage modelDirectory with
      | (false, arr2, storage2) => (⟨vertexArray, indexArray, arr2⟩, storage2)
      | (true, arr2, storage2) =>
        match normalStep loader scene material arr2 storage2 modelDirectory with
        | (_, arr3, storage3) => (⟨vertexArray, indexArray, arr3⟩, storage3)

/-- The forced descriptor appended to an invisible mesh when
`forceRenderInvisible` is set (`modelreaderassimp.cpp:528-532`). -/
def forcedInvisibleTexture : ModelMesh.Texture :=
  { texture := none, hasTexture := false, useForcedColor := true
    type := "color_diffuse" }

/-- The mesh loop of `processNode` (`modelreaderassimp.cpp:516-543`): each
mesh index owned by the node is built with the node's global transform and
then subjected to the invisible-mesh policy.  The third component collects
the names reported by the "Invisible mesh dropped" notices. -/
def processNodeMeshes (loader : TexLoader) (scene : aiScene)
    (globalTransform : Mat4) (forceRenderInvisible notifyInvisibleDropped : Bool)
    (modelDirectory : String) :
    List Nat → List ModelMesh × List TextureEntry × List String →
    List ModelMesh × List TextureEntry × List String
  | [], acc => acc
  | mi :: rest, (meshes, storage, notices) =>
    let mesh := scene.mMeshes.getD mi default
    let (loadedMesh, storageA) :=
      processMesh loader mesh scene globalTransform storage modelDirectory
    if loadedMesh.textures.isEmpty then
      if forceRenderInvisible then
        processNodeMeshes loader scene globalTransform forceRenderInvisible
          notifyInvisibleDropped modelDirectory rest
          (meshes ++ [{ loadedMesh with textures := [forcedInvisibleTexture] }],
            storageA, notices)
      else
        processNodeMeshes loader scene globalTransform forceRenderInvisible
          notifyInvisibleDropped modelDirectory rest
          (meshes, storageA,
            notices ++ (if notifyInvisibleDropped then [mesh.mName] else []))
    else
      processNodeMeshes loader scene globalTransform forceRenderInvisible
        notifyInvisibleDropped modelDirectory rest
        (meshes ++ [loadedMesh], storageA, notices)

mutual

/-- `processNode` (`modelreaderassimp.cpp:491-558`): the node's global
transform is its parent's times its local transform; its meshes are built
with it and its children recursed into with it. -/
def processNode (loader : TexLoader) (scene : aiScene)
    (forceRenderInvisible notifyInvisibleDropped : Bool) (modelDirectory : String)
    (node : aiNode) (parentTransform : Mat4)
    (acc : List ModelMesh × List TextureEntry × List String) :
    List ModelMesh × List TextureEntry × List String :=
  match node with
  | .mk nodeTransform nodeMeshes children =>
    let globalTransform := parentTransform.mul nodeTransform
    let acc1 := processNodeMeshes loader scene globalTransform
      forceRenderInvisible notifyInvisibleDropped modelDirectory nodeMeshes acc
    processNodeChildren loader scene forceRenderInvisible notifyInvisibleDropped
      modelDirectory children globalTransform acc1

/-- The child recursion of `processNode` (`modelreaderassimp.cpp:547-557`). -/
def processNodeChildren (loader : TexLoader) (scene : aiScene)
    (forceRenderInvisible notifyInvisibleDropped : Bool) (modelDirectory : String)
    (nodes : List aiNode) (globalTransform : Mat4)
    (acc : List ModelMesh × List TextureEntry × List String) :
    List ModelMesh × List TextureEntry × List String :=
  match nodes with
  | [] => acc
  | n :: rest =>
    let acc1 := processNode loader scene forceRenderInvisible
      notifyInvisibleDropped modelDirectory n globalTransform acc
    processNodeChildren loader scene forceRenderInvisible notifyInvisibleDropped
      modelDirectory rest globalTransform acc1

end

/-- `ModelLoadException` thrown by `loadModel` for an absent, incomplete or
rootless scene (spec: `ImportError`). -/
inductive ImportError where
  | importFailed
deriving DecidableEq, Repr

/-- `ModelReaderAssimp::loadModel` (`modelreaderassimp.cpp:561-607`): the
importer's result is checked for completeness and a root, then the root is
flattened starting from the identity transform with empty mesh and storage
accumulators. -/
def loadModel (loader : TexLoader) (readResult : Option aiScene)
    (forceRenderInvisible notifyInvisibleDropped : Bool)
    (modelDirectory : String) : Except ImportError ModelGeometry :=
  match readResult with
  | none => .error .importFailed
  | some scene =>
    if scene.flagsIncomplete then
      .error .importFailed
    else
      match scene.mRootNode with
      | none => .error .importFailed
      | some root =>
        let (meshArray, textureStorage, _) :=
          processNode loader scene forceRenderInvisible notifyInvisibleDropped
            modelDirectory root Mat4.identity ([], [], [])
        .ok ⟨meshArray, textureStorage⟩

/-- `CurrentCacheVersion` (`modelreaderassimp.cpp:51`). -/
def CurrentCacheVersion : Int := 1

/-- One unit of the binary cache stream: one `fileStream.read`/`write` of
the corresponding C++ type.  Strings and pixel buffers are kept as single
cells holding their content; a length disagreement between a count cell and
the following content cell models a misaligned raw read. -/
inductive Cell where
  | i8 (v : Int)
  | i32 (v : Int)
  | u32 (v : Nat)
  | f32 (v : Rat)
  | boolCell (v : Bool)
  | strCell (s : String)
  | vtx (v : ModelMesh.Vertex)
  | bytesCell (bs : List Nat)
deriving DecidableEq, Repr

/-- Conversion of a container size (`size_t`) to `int32_t`, with the
two's-complement wrap-around the C++ narrowing performs. -/
def toInt32 (n : Nat) : Int :=
  Int.bmod (n : Int) (2 ^ 32)

/-- The iteration count of a C++ loop `for (unsigned int i = 0; i < n; ++i)`
with `n` of type `int32_t`: the comparison promotes `n` to `unsigned int`. -/
def loopCount (v : Int) : Nat :=
  (v % ((2 : Int) ^ 32)).toNat

/-- The corruption checks of `loadCachedFile` that raise
`ModelLoadException` (spec: `CacheCorruptionError`). -/
inductive CorruptKind where
  | version
  | noTexName
  | noTexSize
  | noMeshes
  | noVertices
  | noIndices
  | noTextures
  | noTexType
  | indexRange
deriving DecidableEq, Repr

/-- The failure modes of `loadCachedFile`:
`readErr` is the `ModelLoadException` for a source that cannot be opened
(spec: `CacheReadError`); `corrupt` the parse-time `ModelLoadException`s
(spec: `CacheCorruptionError`); `missingCase` the `MissingCaseException`
escaping `stringToFormat`/`stringToDataType` on an unknown code; and
`badStream` the modelling artifact for a raw read that does not line up
with what was written. -/
inductive LoadError where
  | readErr
  | corrupt (k : CorruptKind)
  | missingCase
  | badStream
deriving DecidableEq, Repr

/-- The failure modes of `saveCachedFile` (`ModelSaveException`; spec:
`CacheWriteError`). -/
inductive SaveError where
  | openFailed
  | noTexName
  | noTexSize
  | noMeshes
  | noVertices
  | noIndices
  | noTextures
  | noTexType
  | texNotFound
deriving DecidableEq, Repr

/-- `stringToFormat` (`modelreaderassimp.cpp:609-634`); the default case
throws `MissingCaseException`. -/
def stringToFormat (format : String) : Except LoadError TexFormat :=
  if format == "Red " then .ok .Red
  else if format == "RG  " then .ok .RG
  else if format == "RGB " then .ok .RGB
  else if format == "BGR " then .ok .BGR
  else if format == "RGBA" then .ok .RGBA
  else if format == "BGRA" then .ok .BGRA
  else if format == "Dept" then .ok .DepthComponent
  else .error .missingCase

/-- `formatToString` (`modelreaderassimp.cpp:636-669`): the fixed 4-char
space-padded tag of each format. -/
def formatToString : TexFormat → String
  | .Red => "Red "
  | .RG => "RG  "
  | .RGB => "RGB "
  | .BGR => "BGR "
  | .RGBA => "RGBA"
  | .BGRA => "BGRA"
  | .DepthComponent => "Dept"

/-- `stringToDataType` (`modelreaderassimp.cpp:671-699`). -/
def stringToDataType (dataType : String) : Except LoadError GLDataType :=
  if dataType == "byte" then .ok .glByte
  else if dataType == "ubyt" then .ok .glUnsignedByte
  else if dataType == "shor" then .ok .glShort
  else if dataType == "usho" then .ok .glUnsignedShort
  else if dataType == "int " then .ok .glInt
  else if dataType == "uint" then .ok .glUnsignedInt
  else if dataType == "floa" then .ok .glFloat
  else if dataType == "doub" then .ok .glDouble
  else .error .missingCase

/-- `dataTypeToString` (`modelreaderassimp.cpp:701-737`). -/
def dataTypeToString : GLDataType → String
  | .glByte => "byte"
  | .glUnsignedByte => "ubyt"
  | .glShort => "shor"
  | .glUnsignedShort => "usho"
  | .glInt => "int "
  | .glUnsignedInt => "uint"
  | .glFloat => "floa"
  | .glDouble => "doub"

/-- Sequencing of stream parsers. -/
def pbind {α β : Type} (x : Except LoadError (α × List Cell))
    (f : α → List Cell → Except LoadError (β × List Cell)) :
    Except LoadError (β × List Cell) :=
  match x with
  | .error e => .error e
  | .ok (a, s) => f a s

/-- Read one `int8_t`. -/
def readI8 : List Cell → Except LoadError (Int × List Cell)
  | .i8 v :: rest => .ok (v, rest)
  | _ => .error .badStream

/-- Read one `int32_t`. -/
def readI32 : List Cell → Except LoadError (Int × List Cell)
  | .i32 v :: rest => .ok (v, rest)
  | _ => .error .badStream

/-- Read one `unsigned int`. -/
def readU32 : List Cell → Except LoadError (Nat × List Cell)
  | .u32 v :: rest => .ok (v, rest)
  | _ => .error .badStream

/-- Read one `bool`. -/
def readBool : List Cell → Except LoadError (Bool × List Cell)
  | .boolCell v :: rest => .ok (v, rest)
  | _ => .error .badStream

/-- Read one `float`. -/
def readF32 : List Cell → Except LoadError (Rat × List Cell)
  | .f32 v :: rest => .ok (v, rest)
  | _ => .error .badStream

/-- Read `n` raw characters into a string resized to `n`. -/
def readStr (n : Int) : List Cell → Except LoadError (String × List Cell)
  | .strCell s :: rest =>
    if (s.length : Int) == n then .ok (s, rest) else .error .badStream
  | _ => .error .badStream

/-- Read one raw `ModelMesh::Vertex` record. -/
def readVtx : List Cell → Except LoadError (ModelMesh.Vertex × List Cell)
  | .vtx v :: rest => .ok (v, rest)
  | _ => .error .badStream

/-- Read `n` raw pixel bytes. -/
def readBytes (n : Int) : List Cell → Except LoadError (List Nat × List Cell)
  | .bytesCell bs :: rest =>
    if (bs.length : Int) == n then .ok (bs, rest) else .error .badStream
  | _ => .error .badStream

/-- One texture entry of the cache (`modelreaderassimp.cpp:767-830`): name,
dimensions, format, internal format, data type and pixel buffer.  The
texture object is reconstructed with its default (empty) name; only the
entry carries the stored name. -/
def readTextureEntry (s : List Cell) : Except LoadError (TextureEntry × List Cell) :=
  pbind (readI32 s) fun nameSize s =>
  if nameSize == 0 then .error (.corrupt .noTexName) else
  pbind (readStr nameSize s) fun name s =>
  pbind (readU32 s) fun dimx s =>
  pbind (readU32 s) fun dimy s =>
  pbind (readU32 s) fun dimz s =>
  pbind (readStr 4 s) fun formatString s =>
  match stringToFormat formatString with
  | .error e => .error e
  | .ok format =>
  pbind (readU32 s) fun rawInternalFormat s =>
  pbind (readStr 4 s) fun dataTypeString s =>
  match stringToDataType dataTypeString with
  | .error e => .error e
  | .ok dataType =>
  pbind (readI32 s) fun textureSize s =>
  if textureSize == 0 then .error (.corrupt .noTexSize) else
  pbind (readBytes textureSize s) fun data s =>
  .ok (⟨name,
    { name := ""
      dimensions := ⟨dimx, dimy, dimz⟩
      format := format
      internalFormat := rawInternalFormat
      dataType := dataType
      pixels := data
      alphas := [] }⟩, s)

/-- The texture-entry loop of `loadCachedFile`. -/
def readTextureEntries (n : Nat) (acc : List TextureEntry) (s : List Cell) :
    Except LoadError (List TextureEntry × List Cell) :=
  match n with
  | 0 => .ok (acc, s)
  | m + 1 =>
    pbind (readTextureEntry s) fun e s =>
    readTextureEntries m (acc ++ [e]) s

/-- The vertex loop of one cached mesh (`modelreaderassimp.cpp:853-857`). -/
def readVertices (n : Nat) (acc : List ModelMesh.Vertex) (s : List Cell) :
    Except LoadError (List ModelMesh.Vertex × List Cell) :=
  match n with
  | 0 => .ok (acc, s)
  | m + 1 =>
    pbind (readVtx s) fun v s =>
    readVertices m (acc ++ [v]) s

/-- The index loop of one cached mesh (`modelreaderassimp.cpp:868-872`). -/
def readIndices (n : Nat) (acc : List Nat) (s : List Cell) :
    Except LoadError (List Nat × List Cell) :=
  match n with
  | 0 => .ok (acc, s)
  | m + 1 =>
    pbind (readU32 s) fun i s =>
    readIndices m (acc ++ [i]) s

/-- One mesh texture descriptor of the cache
(`modelreaderassimp.cpp:883-926`): the stored index is taken as-is after a
bound check against the decoded storage. -/
def readMeshTexture (storage : List TextureEntry) (s : List Cell) :
    Except LoadError (ModelMesh.Texture × List Cell) :=
  pbind (readI32 s) fun typeSize s =>
  if typeSize == 0 then .error (.corrupt .noTexType) else
  pbind (readStr typeSize s) fun type s =>
  pbind (readBool s) fun hasTexture s =>
  pbind (readBool s) fun useForcedColor s =>
  pbind (readF32 s) fun r s =>
  pbind (readF32 s) fun g s =>
  pbind (readF32 s) fun b s =>
  if hasTexture then
    pbind (readU32 s) fun index s =>
    if index ≥ storage.length then .error (.corrupt .indexRange) else
    .ok ({ texture := some index, type := type, hasTexture := hasTexture,
           useForcedColor := useForcedColor, color := ⟨r, g, b⟩ }, s)
  else
    .ok ({ texture := none, type := type, hasTexture := hasTexture,
           useForcedColor := useForcedColor, color := ⟨r, g, b⟩ }, s)

/-- The texture loop of one cached mesh. -/
def readMeshTextures (storage : List TextureEntry) (n : Nat)
    (acc : List ModelMesh.Texture) (s : List Cell) :
    Except LoadError (List ModelMesh.Texture × List Cell) :=
  match n with
  | 0 => .ok (acc, s)
  | m + 1 =>
    pbind (readMeshTexture storage s) fun t s =>
    readMeshTextures storage m (acc ++ [t]) s

/-- One cached mesh (`modelreaderassimp.cpp:843-935`). -/
def readMesh (storage : List TextureEntry) (s : List Cell) :
    Except LoadError (ModelMesh × List Cell) :=
  pbind (readI32 s) fun nVertices s =>
  if nVertices == 0 then .error (.corrupt .noVertices) else
  pbind (readVertices (loopCount nVertices) [] s) fun vertexArray s =>
  pbind (readI32 s) fun nIndices s =>
  if nIndices == 0 then .error (.corrupt .noIndices) else
  pbind (readIndices (loopCount nIndices) [] s) fun indexArray s =>
  pbind (readI32 s) fun nTextures s =>
  if nTextures == 0 then .error (.corrupt .noTextures) else
  pbind (readMeshTextures storage (loopCount nTextures) [] s) fun textureArray s =>
  .ok (⟨vertexArray, indexArray, textureArray⟩, s)

/-- The mesh loop of `loadCachedFile`. -/
def readMeshes (storage : List TextureEntry) (n : Nat) (acc : List ModelMesh)
    (s : List Cell) : Except LoadError (List ModelMesh × List Cell) :=
  match n with
  | 0 => .ok (acc, s)
  | m + 1 =>
    pbind (readMesh storage s) fun m0 s =>
    readMeshes storage m (acc ++ [m0]) s

/-- The parse of an opened cache stream (`modelreaderassimp.cpp:747-943`):
version check, texture entries, mesh count check, meshes.  A texture-entry
count of zero is merely logged; a mesh count of zero is corruption. -/
def readGeometry (s : List Cell) : Except LoadError (ModelGeometry × List Cell) :=
  pbind (readI8 s) fun version s =>
  if version != CurrentCacheVersion then .error (.corrupt .version) else
  pbind (readI32 s) fun nTextureEntries s =>
  pbind (readTextureEntries (loopCount nTextureEntries) [] s) fun storage s =>
  pbind (readI32 s) fun nMeshes s =>
  if nMeshes == 0 then .error (.corrupt .noMeshes) else
  pbind (readMeshes storage (loopCount nMeshes) [] s) fun meshes s =>
  .ok (⟨meshes, storage⟩, s)

/-- `ModelReaderAssimp::loadCachedFile` (`modelreaderassimp.cpp:739-944`):
`none` models a source that cannot be opened; trailing stream content past
the last mesh is ignored. -/
def loadCachedFile (src : Option (List Cell)) : Except LoadError ModelGeometry :=
  match src with
  | none => .error .readErr
  | some s =>
    match readGeometry s with
    | .error e => .error e
    | .ok (g, _) => .ok g

/-- One texture entry written by `saveCachedFile`
(`modelreaderassimp.cpp:971-1032`). -/
def saveTextureEntry (e : TextureEntry) : Except SaveError (List Cell) :=
  let nameSize := toInt32 e.name.length
  if nameSize == 0 then .error .noTexName else
  let pixelSize := toInt32 e.texture.pixels.length
  if pixelSize == 0 then .error .noTexSize else
  .ok [Cell.i32 nameSize, Cell.strCell e.name,
    Cell.u32 e.texture.dimensions.x, Cell.u32 e.texture.dimensions.y,
    Cell.u32 e.texture.dimensions.z,
    Cell.strCell (formatToString e.texture.format),
    Cell.u32 e.texture.internalFormat,
    Cell.strCell (dataTypeToString e.texture.dataType),
    Cell.i32 pixelSize, Cell.bytesCell e.texture.pixels]

/-- Sequencing of two write results: the concatenated cells when both
succeed, the first error otherwise (the C++ writes run in sequence and the
first throw aborts the call). -/
def seqCells (x y : Except SaveError (List Cell)) : Except SaveError (List Cell) :=
  match x with
  | .error err => .error err
  | .ok cells =>
    match y with
    | .error err => .error err
    | .ok more => .ok (cells ++ more)

/-- The texture-entry loop of `saveCachedFile`. -/
def saveTextureEntries : List TextureEntry → Except SaveError (List Cell)
  | [] => .ok []
  | e :: rest => seqCells (saveTextureEntry e) (saveTextureEntries rest)

/-- One mesh texture descriptor written by `saveCachedFile`
(`modelreaderassimp.cpp:1094-1160`): for a `hasTexture` descriptor the
storage slot is resolved by a linear scan comparing entry names against the
pointed-to texture object's name, and an unmatched name is a save error. -/
def saveMeshTexture (storage : List TextureEntry) (t : ModelMesh.Texture) :
    Except SaveError (List Cell) :=
  let typeSize := toInt32 t.type.length
  if typeSize == 0 then .error .noTexType else
  let head := [Cell.i32 typeSize, Cell.strCell t.type,
    Cell.boolCell t.hasTexture, Cell.boolCell t.useForcedColor,
    Cell.f32 t.color.x, Cell.f32 t.color.y, Cell.f32 t.color.z]
  if t.hasTexture then
    match findEntryIdx storage (pointeeName storage t) with
    | some te => .ok (head ++ [Cell.u32 te])
    | none => .error .texNotFound
  else
    .ok head

/-- The texture loop of one saved mesh. -/
def saveMeshTextures (storage : List TextureEntry) :
    List ModelMesh.Texture → Except SaveError (List Cell)
  | [] => .ok []
  | t :: rest => seqCells (saveMeshTexture storage t) (saveMeshTextures storage rest)

/-- One mesh written by `saveCachedFile` (`modelreaderassimp.cpp:1046-1161`). -/
def saveMesh (storage : List TextureEntry) (m : ModelMesh) :
    Except SaveError (List Cell) :=
  let nVertices := toInt32 m.vertices.length
  if nVertices == 0 then .error .noVertices else
  let nIndices := toInt32 m.indices.length
  if nIndices == 0 then .error .noIndices else
  let nTextures := toInt32 m.textures.length
  if nTextures == 0 then .error .noTextures else
  match saveMeshTextures storage m.textures with
  | .error err => .error err
  | .ok texCells =>
    .ok ([Cell.i32 nVertices] ++ m.vertices.map Cell.vtx ++
      [Cell.i32 nIndices] ++ m.indices.map Cell.u32 ++
      [Cell.i32 nTextures] ++ texCells)

/-- The mesh loop of `saveCachedFile`. -/
def saveMeshes (storage : List TextureEntry) :
    List ModelMesh → Except SaveError (List Cell)
  | [] => .ok []
  | m :: rest => seqCells (saveMesh storage m) (saveMeshes storage rest)

/-- `ModelReaderAssimp::saveCachedFile` (`modelreaderassimp.cpp:946-1164`).
`canOpen` models whether the destination can be opened; a successful run
(the C++ `return fileStream.good()` with every write accepted) yields the
produced cell stream.  A texture-entry count of zero is merely logged; a
mesh count of zero is a save error. -/
def saveCachedFile (canOpen : Bool) (model : ModelGeometry) :
    Except SaveError (List Cell) :=
  if !canOpen then .error .openFailed else
  let nTextureEntries := toInt32 model.textureStorage.length
  match saveTextureEntries model.textureStorage with
  | .error err => .error err
  | .ok entryCells =>
    let nMeshes := toInt32 model.meshes.length
    if nMeshes == 0 then .error .noMeshes else
    match saveMeshes model.textureStorage model.meshes with
    | .error err => .error err
    | .ok meshCells =>
      .ok ([Cell.i8 CurrentCacheVersion, Cell.i32 nTextureEntries] ++
        entryCells ++ [Cell.i32 nMeshes] ++ meshCells)

/-! ## Invariant predicates -/

/-- Shape invariant for one mesh texture descriptor: a `hasTexture`
descriptor carries an in-range storage reference, a non-`hasTexture` one
carries none, and the two flags are never both set. -/
def DescOK (storageLen : Nat) (t : ModelMesh.Texture) : Prop :=
  (t.hasTexture = true → ∃ i, t.texture = some i ∧ i < storageLen) ∧
  (t.hasTexture = false → t.texture = none) ∧
  ¬(t.hasTexture = true ∧ t.useForcedColor = true)

/-- Invariant of the shared texture storage: entry names are pairwise
distinct and each texture object carries its entry's name. -/
def StoreOK (storage : List TextureEntry) : Prop :=
  (storage.map TextureEntry.name).Nodup ∧
  ∀ e ∈ storage, e.texture.name = e.name

/-- Bundled postcondition of one material channel relative to the storage
it started from. -/
def ChanInv (storage : List TextureEntry)
    (res : Bool × List ModelMesh.Texture × List TextureEntry) : Prop :=
  StoreOK res.2.2 ∧ (∃ ext, res.2.2 = storage ++ ext) ∧
  ∀ t ∈ res.2.1, DescOK res.2.2.length t

/-- Bundled invariant of the traversal accumulator: the storage invariant
holds and every accumulated mesh has a non-empty texture list of well-formed
descriptors. -/
def AccOK (acc : List ModelMesh × List TextureEntry × List String) : Prop :=
  StoreOK acc.2.1 ∧
  ∀ m ∈ acc.1, m.textures ≠ [] ∧ ∀ t ∈ m.textures, DescOK acc.2.1.length t

/-- Errors a cache parser may produce once the stream has been opened and
its version accepted: anything except the cannot-open error and the
version-mismatch corruption. -/
def GoodErr (e : LoadError) : Prop :=
  e ≠ .readErr ∧ e ≠ .corrupt .version

/-- A stream accepted by the reader with a zero texture-entry count: empty
storage, one mesh with one vertex, one index and one flat-color
descriptor. -/
def zeroEntryStream : List Cell :=
  [Cell.i8 1, Cell.i32 0, Cell.i32 1,
    Cell.i32 1, Cell.vtx default,
    Cell.i32 1, Cell.u32 0,
    Cell.i32 1,
    Cell.i32 1, Cell.strCell "a", Cell.boolCell false, Cell.boolCell false,
    Cell.f32 0, Cell.f32 0, Cell.f32 0]

/-- Representation consistency of one mesh texture descriptor: the sampled
texture reference is present (and in range) exactly under `hasTexture`. -/
def RepOK (storageLen : Nat) (t : ModelMesh.Texture) : Prop :=
  (t.hasTexture = true → ∃ i, t.texture = some i ∧ i < storageLen) ∧
  (t.hasTexture = false → t.texture = none)

/-! ## Well-formedness for the cache codec -/

/-- What the cache writer requires of one storage entry: non-empty name and
pixel buffer, within `int32` range. -/
def EntryWF (e : TextureEntry) : Prop :=
  e.name.length ≠ 0 ∧ e.name.length < 2 ^ 31 ∧
  e.texture.pixels ≠ [] ∧ e.texture.pixels.length < 2 ^ 31

/-- Well-formedness of a geometry for a faithful cache round trip: the
counts the writer requires to be non-zero are non-zero (and within `int32`
range), storage entry names are pairwise distinct, each storage texture
object carries its entry's name, and descriptor references are consistent
with their `hasTexture` flag. -/
def CacheWF (g : ModelGeometry) : Prop :=
  g.meshes ≠ [] ∧ g.meshes.length < 2 ^ 31 ∧
  g.textureStorage.length < 2 ^ 31 ∧
  (∀ e ∈ g.textureStorage, EntryWF e ∧ e.texture.name = e.name) ∧
  (g.textureStorage.map TextureEntry.name).Nodup ∧
  ∀ m ∈ g.meshes,
    m.vertices ≠ [] ∧ m.vertices.length < 2 ^ 31 ∧
    m.indices ≠ [] ∧ m.indices.length < 2 ^ 31 ∧
    m.textures ≠ [] ∧ m.textures.length < 2 ^ 31 ∧
    ∀ t ∈ m.textures,
      t.type.length ≠ 0 ∧ t.type.length < 2 ^ 31 ∧
      (t.hasTexture = true → ∃ i, t.texture = some i ∧ i < g.textureStorage.length) ∧
      (t.hasTexture = false → t.texture = none)

/-- What `saveCachedFile` requires to run to completion: non-zero counts
(within `int32` range) and a resolvable storage entry name for every
`hasTexture` descriptor. -/
def SaveOK (g : ModelGeometry) : Prop :=
  g.meshes ≠ [] ∧ g.meshes.length < 2 ^ 31 ∧
  (∀ e ∈ g.textureStorage, EntryWF e) ∧
  ∀ m ∈ g.meshes,
    m.vertices ≠ [] ∧ m.vertices.length < 2 ^ 31 ∧
    m.indices ≠ [] ∧ m.indices.length < 2 ^ 31 ∧
    m.textures ≠ [] ∧ m.textures.length < 2 ^ 31 ∧
    ∀ t ∈ m.textures, t.type.length ≠ 0 ∧ t.type.length < 2 ^ 31 ∧
      (t.hasTexture = true →
        findEntryIdx g.textureStorage (pointeeName g.textureStorage t) ≠ none)

/-- The storage entry reconstructed by the cache reader: same name, metadata
and pixel bytes; the texture object's own name and the derived alpha view
are not part of the cache format. -/
def decodedEntry (e : TextureEntry) : TextureEntry :=
  ⟨e.name,
    { name := "", dimensions := e.texture.dimensions, format := e.texture.format,
      internalFormat := e.texture.internalFormat, dataType := e.texture.dataType,
      pixels := e.texture.pixels, alphas := [] }⟩

/-! ## Concrete example data -/

/-- A decoding service that always fails, for scenarios that must not reach
it. -/
def failLoader : TexLoader := fun _ => .error .loadFailed

/-- A fixed opaque 1x1 texture. -/
def unitTexture : Texture :=
  { name := "", dimensions := ⟨1, 1, 1⟩, format := .RGBA, internalFormat := 0,
    dataType := .glUnsignedByte, pixels := [255, 0, 0, 255], alphas := [[1]] }

/-- A decoding service that always returns the fixed opaque texture. -/
def okLoader : TexLoader := fun _ => .ok unitTexture

/-- A fully transparent 1x1 texture. -/
def clearTexture : Texture :=
  { unitTexture with pixels := [0, 0, 0, 0], alphas := [[0]] }

/-- A decoding service that always returns the transparent texture. -/
def clearLoader : TexLoader := fun _ => .ok clearTexture

/-- Translation by `(1, 0, 0)` as a glm column-major matrix. -/
def translate100 : Mat4 :=
  ⟨⟨1, 0, 0, 0⟩, ⟨0, 1, 0, 0⟩, ⟨0, 0, 1, 0⟩, ⟨1, 0, 0, 1⟩⟩

/-- A two-triangle-vertex source mesh used by the scenarios. -/
def scenarioMesh0 : aiMesh :=
  { mVertices := [⟨1, 2, 3⟩, ⟨4, 5, 6⟩], mFaces := [⟨[0, 1, 2]⟩],
    mMaterialIndex := 0, mName := "m0" }

/-- The same source mesh under another name, owned by the child node. -/
def scenarioMesh1 : aiMesh :=
  { scenarioMesh0 with mName := "m1" }

/-- The two-node scenario of spec §8: identity root owning mesh 0, one child
translated by `(1, 0, 0)` owning mesh 1, one shared flat-color material. -/
def scenarioScene : aiScene :=
  { mMeshes := [scenarioMesh0, scenarioMesh1],
    mMaterials := [{ colorDiffuse4 := some ⟨1, 1, 1, 1⟩ }],
    mRootNode := some (.mk Mat4.identity [0] [.mk translate100 [1] []]) }

/-- An example storage texture whose object name matches its entry name. -/
def exTexture : Texture :=
  { name := "wood.png", dimensions := ⟨1, 1, 1⟩, format := .Red,
    internalFormat := 7, dataType := .glUnsignedByte, pixels := [5],
    alphas := [[1]] }

/-- A well-formed one-mesh one-entry geometry for the round-trip witness. -/
def exGeometry : ModelGeometry :=
  { meshes := [{ vertices := [default], indices := [0],
                 textures := [{ texture := some 0, type := "texture_diffuse",
                                hasTexture := true, useForcedColor := false,
                                color := ⟨1, 2, 3⟩ }] }],
    textureStorage := [{ name := "wood.png", texture := exTexture }] }

/-- A geometry with two storage entries sharing one name, the mesh
referencing the second: counter-data for the write path's first-match name
scan. -/
def dupNameGeometry : ModelGeometry :=
  { meshes := [{ vertices := [default], indices := [0],
                 textures := [{ texture := some 1, type := "texture_diffuse",
                                hasTexture := true, useForcedColor := false,
                                color := ⟨1, 2, 3⟩ }] }],
    textureStorage := [{ name := "wood.png", texture := exTexture },
      { name := "wood.png", texture := exTexture }] }

/-- A geometry whose single `hasTexture` descriptor points at a texture
object whose name matches no storage entry name. -/
def badNameGeometry : ModelGeometry :=
  { meshes := [{ vertices := [default], indices := [0],
                 textures := [{ texture := some 0, type := "texture_diffuse",
                                hasTexture := true, useForcedColor := false,
                                color := ⟨1, 2, 3⟩ }] }],
    textureStorage := [{ name := "wood.png",
                         texture := { exTexture with name := "oak.png" } }] }

/-- A geometry with no meshes at all. -/
def noMeshesGeometry : ModelGeometry :=
  { meshes := [], textureStorage := [] }

/-- A geometry whose single storage entry has an empty name. -/
def emptyNameGeometry : ModelGeometry :=
  { meshes := [], textureStorage := [{ name := "", texture := exTexture }] }

/-- A geometry whose single storage entry has an empty pixel buffer. -/
def emptyPixelsGeometry : ModelGeometry :=
  { meshes := [],
    textureStorage := [{ name := "a",
                         texture := { exTexture with pixels := [] } }] }

/-- A geometry whose single mesh has no vertices. -/
def emptyVerticesGeometry : ModelGeometry :=
  { meshes := [{ vertices := [], indices := [], textures := [] }],
    textureStorage := [] }

/-- A geometry whose single mesh has vertices but no indices. -/
def emptyIndicesGeometry : ModelGeometry :=
  { meshes := [{ vertices := [default], indices := [], textures := [] }],
    textureStorage := [] }

/-- A geometry whose single mesh has no texture descriptors. -/
def emptyTexturesGeometry : ModelGeometry :=
  { meshes := [{ vertices := [default], indices := [0], textures := [] }],
    textureStorage := [] }

/-- A geometry whose single descriptor carries an empty type tag. -/
def emptyTypeGeometry : ModelGeometry :=
  { meshes := [{ vertices := [default], indices := [0], textures := [{}] }],
    textureStorage := [] }

/-- A crafted cache stream whose single descriptor has both `hasTexture` and
`useForcedColor` set: one 1x1 texture entry, one mesh with one vertex, one
index and that descriptor. -/
def bothFlagsStream : List Cell :=
  [Cell.i8 1, Cell.i32 1,
    Cell.i32 1, Cell.strCell "a", Cell.u32 1, Cell.u32 1, Cell.u32 1,
    Cell.strCell "Red ", Cell.u32 0, Cell.strCell "ubyt",
    Cell.i32 1, Cell.bytesCell [5],
    Cell.i32 1,
    Cell.i32 1, Cell.vtx default,
    Cell.i32 1, Cell.u32 0,
    Cell.i32 1,
    Cell.i32 15, Cell.strCell "texture_diffuse",
    Cell.boolCell true, Cell.boolCell true,
    Cell.f32 1, Cell.f32 2, Cell.f32 3, Cell.u32 0]

/-- The geometry `bothFlagsStream` decodes to. -/
def bothFlagsGeometry : ModelGeometry :=
  { meshes := [{ vertices := [default], indices := [0],
                 textures := [{ texture := some 0, type := "texture_diffuse",
                                hasTexture := true, useForcedColor := true,
                                color := ⟨1, 2, 3⟩ }] }],
    textureStorage := [{ name := "a",
                         texture := { name := "", dimensions := ⟨1, 1, 1⟩,
                                      format := .Red, internalFormat := 0,
                                      dataType := .glUnsignedByte,
                                      pixels := [5], alphas := [] } }] }

/-- A scene whose single material is fully transparent (`opacity == 0`) yet
carries a diffuse texture reference. -/
def opacityScene : aiScene :=
  { mMeshes := [scenarioMesh0],
    mMaterials := [{ opacity := some 0, diffuseTextures := ["wood.png"] }],
    mRootNode := some (.mk Mat4.identity [0] []) }

/-- A scene whose single material yields no texture and no color: its mesh
comes out of MeshBuilder invisible. -/
def invisibleScene : aiScene :=
  { mMeshes := [scenarioMesh0],
    mMaterials := [{}],
    mRootNode := some (.mk Mat4.identity [0] []) }

/-- A one-entry storage pool holding the example texture under its own
name. -/
def woodStorage : List TextureEntry :=
  [{ name := "wood.png", texture := exTexture }]

/-! ## Basic algebra of the embedded glm operations -/

/-- Applying a product matrix is applying the factors in sequence; this is
what makes the composed `globalTransform` of the traversal act on vertices
as the composition of the node transforms. -/
theorem Mat4.mulVec_mul (a b : Mat4) (v : Vec4) :
    (a.mul b).mulVec v = a.mulVec (b.mulVec v) := by
  cases a with
  | mk a0 a1 a2 a3 =>
    cases a0; cases a1; cases a2; cases a3
    cases b with
    | mk b0 b1 b2 b3 =>
      cases b0; cases b1; cases b2; cases b3
      cases v
      simp only [Mat4.mul, Mat4.mulVec, Vec4.add, Vec4.smul, Vec4.mk.injEq]
      refine ⟨by ring, by ring, by ring, by ring⟩

/-- The identity matrix is a left unit for the matrix product. -/
theorem Mat4.identity_mul (m : Mat4) : Mat4.identity.mul m = m := by
  cases m with
  | mk c0 c1 c2 c3 =>
    cases c0; cases c1; cases c2; cases c3
    simp only [Mat4.identity, Mat4.mul, Mat4.mulVec, Vec4.add, Vec4.smul,
      Mat4.mk.injEq, Vec4.mk.injEq]
    refine ⟨⟨by ring, by ring, by ring, by ring⟩, ⟨by ring, by ring, by ring, by ring⟩,
      ⟨by ring, by ring, by ring, by ring⟩, ⟨by ring, by ring, by ring, by ring⟩⟩

/-! ## Vertex construction -/

/-- `processVertices` produces one vertex per source vertex. -/
theorem processVertices_length (mesh : aiMesh) (transform : Mat4) :
    (processVertices mesh transform).length = mesh.mVertices.length := by
  simp [processVertices]

/-- Every produced vertex position is the supplied matrix applied to the raw
source position with homogeneous coordinate 1
(`modelreaderassimp.cpp:262-279`). -/
theorem processVertices_location (mesh : aiMesh) (transform : Mat4) (i : Nat)
    (hi : i < mesh.mVertices.length) :
    ((processVertices mesh transform).getD i default).location =
      transform.mulVec ⟨(mesh.mVertices.getD i default).x,
        (mesh.mVertices.getD i default).y,
        (mesh.mVertices.getD i default).z, 1⟩ := by
  simp [processVertices, List.getD_eq_getElem?_getD, List.getElem?_map,
    List.getElem?_range, hi]

/-! ## TextureResolver: one step of the texture loop per case -/

/-- Duplicate in the current mesh's texture list: the reference is skipped
outright (`modelreaderassimp.cpp:69-86`). -/
theorem loadTexturesLoop_skip_mesh (loader : TexLoader) (scene : aiScene)
    (ty dir path : String) (rest : List String) (arr : List ModelMesh.Texture)
    (storage : List TextureEntry)
    (hm : meshHasTexture storage arr path = true) :
    loadTexturesLoop loader scene ty dir (path :: rest) arr storage =
      loadTexturesLoop loader scene ty dir rest arr storage := by
  simp [loadTexturesLoop, hm]

/-- Name hit in the global storage: the existing entry is referenced, no new
entry is appended and the loader is never consulted
(`modelreaderassimp.cpp:89-104`). -/
theorem loadTexturesLoop_reuse (loader : TexLoader) (scene : aiScene)
    (ty dir path : String) (rest : List String) (arr : List ModelMesh.Texture)
    (storage : List TextureEntry) (j : Nat)
    (hm : meshHasTexture storage arr path = false)
    (hf : findEntryIdx storage path = some j) :
    loadTexturesLoop loader scene ty dir (path :: rest) arr storage =
      loadTexturesLoop loader scene ty dir rest
        (arr ++ [{ texture := some j, type := ty, hasTexture := true }])
        (setEntryTexName storage j path) := by
  simp [loadTexturesLoop, hm, hf]

/-- Load failure (missing decoder, decode failure, or embedded uncompressed
data): the forced-color diffuse descriptor is appended, the rest of the
channel is not attempted, and the function reports failure
(`modelreaderassimp.cpp:111-218`). -/
theorem loadTexturesLoop_fail (loader : TexLoader) (scene : aiScene)
    (ty dir path : String) (rest : List String) (arr : List ModelMesh.Texture)
    (storage : List TextureEntry)
    (hm : meshHasTexture storage arr path = false)
    (hf : findEntryIdx storage path = none)
    (hl : attemptLoad loader scene dir path = .error ()) :
    loadTexturesLoop loader scene ty dir (path :: rest) arr storage =
      (false, arr ++ [forcedColorTexture], storage) := by
  simp [loadTexturesLoop, hm, hf, hl]

/-- Successful load of a texture that is transparent everywhere: it is added
neither to the mesh's texture list nor to the storage pool, and the loop
continues (`modelreaderassimp.cpp:220-237`). -/
theorem loadTexturesLoop_transparent (loader : TexLoader) (scene : aiScene)
    (ty dir path : String) (rest : List String) (arr : List ModelMesh.Texture)
    (storage : List TextureEntry) (tex : Texture)
    (hm : meshHasTexture storage arr path = false)
    (hf : findEntryIdx storage path = none)
    (hl : attemptLoad loader scene dir path = .ok tex)
    (hop : isOpague (tex.setName path) = false) :
    loadTexturesLoop loader scene ty dir (path :: rest) arr storage =
      loadTexturesLoop loader scene ty dir rest arr storage := by
  simp [loadTexturesLoop, hm, hf, hl, hop]

/-- Successful load of a texture with some visible texel: it is appended to
both the mesh's texture list (as a reference to the new storage slot) and
the storage pool (`modelreaderassimp.cpp:239-242`). -/
theorem loadTexturesLoop_new (loader : TexLoader) (scene : aiScene)
    (ty dir path : String) (rest : List String) (arr : List ModelMesh.Texture)
    (storage : List TextureEntry) (tex : Texture)
    (hm : meshHasTexture storage arr path = false)
    (hf : findEntryIdx storage path = none)
    (hl : attemptLoad loader scene dir path = .ok tex)
    (hop : isOpague (tex.setName path) = true) :
    loadTexturesLoop loader scene ty dir (path :: rest) arr storage =
      loadTexturesLoop loader scene ty dir rest
        (arr ++ [{ texture := some storage.length, type := ty, hasTexture := true }])
        (storage ++ [⟨path, tex.setName path⟩]) := by
  simp [loadTexturesLoop, hm, hf, hl, hop]

/-- The transparency scan finds a texture opaque exactly when some texel in
the scanned grid has non-zero alpha. -/
theorem isOpague_iff (t : Texture) :
    isOpague t = true ↔
      ∃ j < t.dimensions.x, ∃ k < t.dimensions.y, t.alphaAt j k ≠ 0 := by
  simp [isOpague, List.any_eq_true, List.mem_range]

/-! ## The storage name scan -/

/-- A successful scan returns an in-range index whose entry bears the
searched name. -/
theorem findEntryIdx_lt (storage : List TextureEntry) (nm : String) (j : Nat)
    (h : findEntryIdx storage nm = some j) :
    j < storage.length ∧ (storage.getD j default).name = nm := by
  induction storage generalizing j with
  | nil => simp [findEntryIdx] at h
  | cons e rest ih =>
    by_cases he : e.name = nm
    · simp [findEntryIdx, he] at h
      subst h
      simpa using he
    · simp [findEntryIdx, he] at h
      obtain ⟨j', hj', rfl⟩ := h
      obtain ⟨h1, h2⟩ := ih j' hj'
      exact ⟨by simpa using h1, by simpa using h2⟩

/-- The scan fails exactly when no entry bears the searched name. -/
theorem findEntryIdx_none_iff (storage : List TextureEntry) (nm : String) :
    findEntryIdx storage nm = none ↔ ∀ e ∈ storage, e.name ≠ nm := by
  induction storage with
  | nil => simp [findEntryIdx]
  | cons e rest ih =>
    by_cases he : e.name = nm
    · simp [findEntryIdx, he]
    · simp [findEntryIdx, he, ih]

/-- With pairwise-distinct entry names, the first entry carrying the name of
the entry at `i` is the entry at `i` itself. -/
theorem findEntryIdx_self (storage : List TextureEntry) (i : Nat)
    (hnodup : (storage.map TextureEntry.name).Nodup)
    (hi : i < storage.length) :
    findEntryIdx storage ((storage.getD i default).name) = some i := by
  induction storage generalizing i with
  | nil => simp at hi
  | cons e rest ih =>
    cases i with
    | zero => simp [findEntryIdx]
    | succ i' =>
      have hi' : i' < rest.length := by simpa using hi
      have hmem : (rest.getD i' default).name ∈ rest.map TextureEntry.name := by
        refine List.mem_map.mpr ⟨rest.getD i' default, ?_, rfl⟩
        rw [List.getD_eq_getElem?_getD, List.getElem?_eq_getElem hi']
        simp [List.getElem_mem]
      have hne : e.name ≠ (rest.getD i' default).name := by
        intro hcontra
        have := (List.nodup_cons.mp hnodup).1
        rw [hcontra] at this
        exact this hmem
      have hrest := ih i' (List.nodup_cons.mp hnodup).2 hi'
      simp only [List.getD_cons_succ, findEntryIdx, beq_iff_eq]
      rw [if_neg hne, hrest]
      rfl

/-- When every storage texture object carries its entry's name and the index
points at an entry named `path`, the `setName` through the dedup hit is the
identity on the storage. -/
theorem setEntryTexName_id (storage : List TextureEntry) (j : Nat) (path : String)
    (hc : ∀ e ∈ storage, e.texture.name = e.name)
    (hj : (storage.getD j default).name = path) (hlt : j < storage.length) :
    setEntryTexName storage j path = storage := by
  induction storage generalizing j with
  | nil => simp at hlt
  | cons e rest ih =>
    cases j with
    | zero =>
      have hname : e.texture.name = e.name := hc e (by simp)
      have hpath : e.name = path := by simpa using hj
      have htex : e.texture.setName path = e.texture := by
        have hp : path = e.texture.name := by rw [hname, hpath]
        rw [hp]
        rfl
      simp [setEntryTexName, htex]
    | succ j' =>
      have hj' : (rest.getD j' default).name = path := by simpa using hj
      have hlt' : j' < rest.length := by simpa using hlt
      have hrest := ih j' (fun x hx => hc x (by simp [hx])) hj' hlt'
      simp only [setEntryTexName, List.getElem?_cons_succ] at hrest ⊢
      cases hget : rest[j']? with
      | none => simp only [hget]
      | some x =>
        simp only [hget] at hrest ⊢
        simp only [List.set_cons_succ]
        rw [hrest]

/-! ## Import invariants -/

/-- Descriptor well-formedness survives storage growth. -/
theorem DescOK_mono {n m : Nat} (h : n ≤ m) {t : ModelMesh.Texture}
    (ht : DescOK n t) : DescOK m t := by
  obtain ⟨h1, h2, h3⟩ := ht
  refine ⟨?_, h2, h3⟩
  intro hh
  obtain ⟨i, hi, hlt⟩ := h1 hh
  exact ⟨i, hi, lt_of_lt_of_le hlt h⟩

/-- The forced-color fallback descriptor is well formed for any storage. -/
theorem DescOK_forcedColor (n : Nat) : DescOK n forcedColorTexture := by
  simp [DescOK, forcedColorTexture]

/-- The forced descriptor of the invisible-mesh policy is well formed. -/
theorem DescOK_forcedInvisible (n : Nat) : DescOK n forcedInvisibleTexture := by
  simp [DescOK, forcedInvisibleTexture]

/-- Flat-color fallback descriptors of the diffuse channel are well formed. -/
theorem DescOK_diffuseFallback (n : Nat) (material : aiMaterial) :
    ∀ t ∈ diffuseColorFallback material, DescOK n t := by
  unfold diffuseColorFallback
  cases material.colorDiffuse4 with
  | some c4 =>
    by_cases h : c4.a != 0 <;> simp [h, DescOK]
  | none =>
    cases material.colorDiffuse3 with
    | some c3 => simp [DescOK]
    | none => simp

/-- Flat-color fallback descriptors of the specular channel are well formed. -/
theorem DescOK_specularFallback (n : Nat) (material : aiMaterial) :
    ∀ t ∈ specularColorFallback material, DescOK n t := by
  unfold specularColorFallback
  cases material.colorSpecular4 with
  | some c4 =>
    by_cases hb : !c4.IsBlack
    · by_cases ha : c4.a != 0 <;> simp [hb, ha, DescOK]
    · cases material.colorSpecular3 with
      | some c3 =>
        by_cases hb3 : !c3.IsBlack <;> simp [hb, hb3, DescOK]
      | none => simp [hb]
  | none =>
    cases material.colorSpecular3 with
    | some c3 =>
      by_cases hb3 : !c3.IsBlack <;> simp [hb3, DescOK]
    | none => simp

/-- The texture loop preserves the storage invariant, only appends to the
storage, and returns only well-formed descriptors. -/
theorem loadTexturesLoop_inv (loader : TexLoader) (scene : aiScene)
    (ty dir : String) (paths : List String) (arr : List ModelMesh.Texture)
    (storage : List TextureEntry)
    (hs : StoreOK storage) (ha : ∀ t ∈ arr, DescOK storage.length t) :
    StoreOK (loadTexturesLoop loader scene ty dir paths arr storage).2.2 ∧
    (∃ ext, (loadTexturesLoop loader scene ty dir paths arr storage).2.2 =
      storage ++ ext) ∧
    (∀ t ∈ (loadTexturesLoop loader scene ty dir paths arr storage).2.1,
      DescOK (loadTexturesLoop loader scene ty dir paths arr storage).2.2.length t) := by
  induction paths generalizing arr storage with
  | nil =>
    refine ⟨by simpa [loadTexturesLoop] using hs, ⟨[], by simp [loadTexturesLoop]⟩, ?_⟩
    simpa [loadTexturesLoop] using ha
  | cons path rest ih =>
    cases hm : meshHasTexture storage arr path with
    | true =>
      rw [loadTexturesLoop_skip_mesh loader scene ty dir path rest arr storage hm]
      exact ih arr storage hs ha
    | false =>
      cases hf : findEntryIdx storage path with
      | some j =>
        rw [loadTexturesLoop_reuse loader scene ty dir path rest arr storage j hm hf]
        obtain ⟨hjlt, hjname⟩ := findEntryIdx_lt storage path j hf
        rw [setEntryTexName_id storage j path hs.2 hjname hjlt]
        refine ih _ storage hs ?_
        intro t ht
        rcases List.mem_append.mp ht with h | h
        · exact ha t h
        · have ht2 := List.mem_singleton.mp h
          subst ht2
          exact ⟨fun _ => ⟨j, rfl, hjlt⟩, by simp, by simp⟩
      | none =>
        cases hl : attemptLoad loader scene dir path with
        | error u =>
          cases u
          rw [loadTexturesLoop_fail loader scene ty dir path rest arr storage hm hf hl]
          refine ⟨hs, ⟨[], by simp⟩, ?_⟩
          intro t ht
          rcases List.mem_append.mp ht with h | h
          · exact ha t h
          · have ht2 := List.mem_singleton.mp h
            subst ht2
            exact DescOK_forcedColor _
        | ok tex =>
          cases hop : isOpague (tex.setName path) with
          | false =>
            rw [loadTexturesLoop_transparent loader scene ty dir path rest arr storage
              tex hm hf hl hop]
            exact ih arr storage hs ha
          | true =>
            rw [loadTexturesLoop_new loader scene ty dir path rest arr storage
              tex hm hf hl hop]
            have hnotin : ∀ e ∈ storage, e.name ≠ path :=
              (findEntryIdx_none_iff storage path).mp hf
            have hs' : StoreOK (storage ++ [TextureEntry.mk path (tex.setName path)]) := by
              constructor
              · rw [List.map_append]
                rw [List.nodup_append]
                refine ⟨hs.1, by simp, ?_⟩
                intro x hx hx1
                obtain ⟨e, he, rfl⟩ := List.mem_map.mp hx
                simp at hx1
                exact hnotin e he hx1
              · intro e he
                rcases List.mem_append.mp he with h | h
                · exact hs.2 e h
                · have he2 := List.mem_singleton.mp h
                  subst he2
                  rfl
            have ha' : ∀ t ∈
                arr ++ [ModelMesh.Texture.mk (some storage.length) ty true false ⟨0, 0, 0⟩],
                DescOK (storage ++ [TextureEntry.mk path (tex.setName path)]).length t := by
              intro t ht
              rcases List.mem_append.mp ht with h | h
              · exact DescOK_mono (by simp) (ha t h)
              · have ht2 := List.mem_singleton.mp h
                subst ht2
                exact ⟨fun _ => ⟨storage.length, rfl, by simp⟩, by simp, by simp⟩
            obtain ⟨r1, ⟨ext, r2⟩, r3⟩ :=
              ih _ (storage ++ [TextureEntry.mk path (tex.setName path)]) hs' ha'
            refine ⟨r1, ⟨[TextureEntry.mk path (tex.setName path)] ++ ext,
              by simpa using r2⟩, r3⟩

/-- The diffuse channel establishes the channel postcondition. -/
theorem diffuseStep_inv (loader : TexLoader) (scene : aiScene)
    (material : aiMaterial) (storage : List TextureEntry) (dir : String)
    (hs : StoreOK storage) :
    ChanInv storage (diffuseStep loader scene material storage dir) := by
  unfold diffuseStep
  by_cases hc : material.diffuseTextures.length > 0
  · simp only [hc, if_true]
    exact loadTexturesLoop_inv loader scene _ dir _ [] storage hs (by simp)
  · simp only [hc, if_false]
    exact ⟨hs, ⟨[], by simp⟩, fun t ht => DescOK_diffuseFallback _ material t ht⟩

/-- The specular channel preserves the channel postcondition. -/
theorem specularStep_inv (loader : TexLoader) (scene : aiScene)
    (material : aiMaterial) (arr : List ModelMesh.Texture)
    (storage : List TextureEntry) (dir : String)
    (hs : StoreOK storage) (ha : ∀ t ∈ arr, DescOK storage.length t) :
    ChanInv storage (specularStep loader scene material arr storage dir) := by
  unfold specularStep
  by_cases hc : material.specularTextures.length > 0
  · simp only [hc, if_true]
    exact loadTexturesLoop_inv loader scene _ dir _ arr storage hs ha
  · simp only [hc, if_false]
    refine ⟨hs, ⟨[], by simp⟩, ?_⟩
    intro t ht
    rcases List.mem_append.mp ht with h | h
    · exact ha t h
    · exact DescOK_specularFallback _ material t h

/-- The normal channel preserves the channel postcondition. -/
theorem normalStep_inv (loader : TexLoader) (scene : aiScene)
    (material : aiMaterial) (arr : List ModelMesh.Texture)
    (storage : List TextureEntry) (dir : String)
    (hs : StoreOK storage) (ha : ∀ t ∈ arr, DescOK storage.length t) :
    ChanInv storage (normalStep loader scene material arr storage dir) := by
  unfold normalStep
  by_cases hc : material.normalsTextures.length > 0
  · simp only [hc, if_true]
    exact loadTexturesLoop_inv loader scene _ dir _ arr storage hs ha
  · simp only [hc, if_false]
    exact ⟨hs, ⟨[], by simp⟩, ha⟩

/-- `processMesh` preserves the storage invariant, only appends to the
storage, and every descriptor of the produced mesh is well formed. -/
theorem processMesh_inv (loader : TexLoader) (mesh : aiMesh) (scene : aiScene)
    (transform : Mat4) (storage : List TextureEntry) (dir : String)
    (hs : StoreOK storage) :
    StoreOK (processMesh loader mesh scene transform storage dir).2 ∧
    (∃ ext, (processMesh loader mesh scene transform storage dir).2 =
      storage ++ ext) ∧
    (∀ t ∈ (processMesh loader mesh scene transform storage dir).1.textures,
      DescOK (processMesh loader mesh scene transform storage dir).2.length t) := by
  simp only [processMesh]
  split
  · exact ⟨hs, ⟨[], by simp⟩, by simp⟩
  · split
    case _ arr1 st1 heq1 =>
      have hD := diffuseStep_inv loader scene
        (scene.mMaterials.getD mesh.mMaterialIndex default) storage dir hs
      rw [heq1] at hD
      exact hD
    case _ arr1 st1 heq1 =>
      have hD := diffuseStep_inv loader scene
        (scene.mMaterials.getD mesh.mMaterialIndex default) storage dir hs
      rw [heq1] at hD
      obtain ⟨d1, ⟨dext, d2⟩, d3⟩ := hD
      simp only [Prod.snd, Prod.fst] at d1 d2 d3
      split
      case _ arr2 st2 heq2 =>
        have hS := specularStep_inv loader scene
          (scene.mMaterials.getD mesh.mMaterialIndex default) arr1 st1 dir d1 d3
        rw [heq2] at hS
        obtain ⟨s1, ⟨sext, s2⟩, s3⟩ := hS
        simp only [Prod.snd, Prod.fst] at s1 s2 s3
        refine ⟨s1, ⟨dext ++ sext, ?_⟩, s3⟩
        show st2 = storage ++ (dext ++ sext)
        rw [s2, d2, List.append_assoc]
      case _ arr2 st2 heq2 =>
        have hS := specularStep_inv loader scene
          (scene.mMaterials.getD mesh.mMaterialIndex default) arr1 st1 dir d1 d3
        rw [heq2] at hS
        obtain ⟨s1, ⟨sext, s2⟩, s3⟩ := hS
        simp only [Prod.snd, Prod.fst] at s1 s2 s3
        have hN := normalStep_inv loader scene
          (scene.mMaterials.getD mesh.mMaterialIndex default) arr2 st2 dir s1 s3
        obtain ⟨r, heq3⟩ : (∃ r, normalStep loader scene
            (scene.mMaterials.getD mesh.mMaterialIndex default) arr2 st2 dir = r) :=
          ⟨_, rfl⟩
        obtain ⟨b3, arr3, st3⟩ := r
        rw [heq3] at hN
        obtain ⟨n1, ⟨next, n2⟩, n3⟩ := hN
        simp only [Prod.snd, Prod.fst] at n1 n2 n3
        rw [heq3]
        refine ⟨n1, ⟨dext ++ (sext ++ next), ?_⟩, n3⟩
        show st3 = storage ++ (dext ++ (sext ++ next))
        rw [n2, s2, d2]
        simp [List.append_assoc]

/-- The mesh loop of `processNode` preserves the accumulator invariant and
only appends to the storage. -/
theorem processNodeMeshes_inv (loader : TexLoader) (scene : aiScene)
    (gt : Mat4) (force notify : Bool) (dir : String) (mis : List Nat)
    (acc : List ModelMesh × List TextureEntry × List String)
    (h : AccOK acc) :
    AccOK (processNodeMeshes loader scene gt force notify dir mis acc) ∧
    ∃ ext, (processNodeMeshes loader scene gt force notify dir mis acc).2.1 =
      acc.2.1 ++ ext := by
  induction mis generalizing acc with
  | nil =>
    exact ⟨h, ⟨[], by simp [processNodeMeshes]⟩⟩
  | cons mi rest ih =>
    obtain ⟨meshes, storage, notices⟩ := acc
    obtain ⟨hstore, hmeshes⟩ := h
    simp only [Prod.snd, Prod.fst] at hstore hmeshes
    obtain ⟨r, hr⟩ : (∃ r, processMesh loader (scene.mMeshes.getD mi default)
        scene gt storage dir = r) := ⟨_, rfl⟩
    obtain ⟨loadedMesh, storageA⟩ := r
    have hpm := processMesh_inv loader (scene.mMeshes.getD mi default) scene
      gt storage dir hstore
    rw [hr] at hpm
    obtain ⟨p1, ⟨pext, p2⟩, p3⟩ := hpm
    simp only [Prod.snd, Prod.fst] at p1 p2 p3
    have hlen : storage.length ≤ storageA.length := by
      rw [p2]
      simp
    simp only [processNodeMeshes, hr]
    split
    · split
      · -- invisible mesh, forced to render
        refine (ih _ ⟨p1, ?_⟩).imp id ?_
        · intro m hm
          rcases List.mem_append.mp hm with hmm | hmm
          · obtain ⟨q1, q2⟩ := hmeshes m hmm
            exact ⟨q1, fun t ht => DescOK_mono hlen (q2 t ht)⟩
          · have hm2 := List.mem_singleton.mp hmm
            subst hm2
            refine ⟨by simp, ?_⟩
            intro t ht
            have ht2 := List.mem_singleton.mp ht
            subst ht2
            exact DescOK_forcedInvisible _
        · rintro ⟨ext, hext⟩
          exact ⟨pext ++ ext, by simpa [List.append_assoc, p2] using hext⟩
      · -- invisible mesh, dropped (with or without notice)
        refine (ih _ ⟨p1, ?_⟩).imp id ?_
        · intro m hm
          obtain ⟨q1, q2⟩ := hmeshes m hm
          exact ⟨q1, fun t ht => DescOK_mono hlen (q2 t ht)⟩
        · rintro ⟨ext, hext⟩
          exact ⟨pext ++ ext, by simpa [List.append_assoc, p2] using hext⟩
    · -- visible mesh, kept
      next hvis =>
      refine (ih _ ⟨p1, ?_⟩).imp id ?_
      · intro m hm
        rcases List.mem_append.mp hm with hmm | hmm
        · obtain ⟨q1, q2⟩ := hmeshes m hmm
          exact ⟨q1, fun t ht => DescOK_mono hlen (q2 t ht)⟩
        · have hm2 := List.mem_singleton.mp hmm
          subst hm2
          refine ⟨by simpa [List.isEmpty_iff] using hvis, p3⟩
      · rintro ⟨ext, hext⟩
        exact ⟨pext ++ ext, by simpa [List.append_assoc, p2] using hext⟩

mutual

/-- `processNode` preserves the accumulator invariant and only appends to
the storage. -/
theorem processNode_inv (loader : TexLoader) (scene : aiScene)
    (force notify : Bool) (dir : String) (node : aiNode) (pt : Mat4)
    (acc : List ModelMesh × List TextureEntry × List String)
    (h : AccOK acc) :
    AccOK (processNode loader scene force notify dir node pt acc) ∧
    ∃ ext, (processNode loader scene force notify dir node pt acc).2.1 =
      acc.2.1 ++ ext := by
  cases node with
  | mk t ms cs =>
    simp only [processNode]
    obtain ⟨h1, ⟨ext1, he1⟩⟩ :=
      processNodeMeshes_inv loader scene (pt.mul t) force notify dir ms acc h
    obtain ⟨h2, ⟨ext2, he2⟩⟩ :=
      processNodeChildren_inv loader scene force notify dir cs (pt.mul t) _ h1
    exact ⟨h2, ⟨ext1 ++ ext2, by rw [he2, he1, List.append_assoc]⟩⟩

/-- The child recursion preserves the accumulator invariant and only appends
to the storage. -/
theorem processNodeChildren_inv (loader : TexLoader) (scene : aiScene)
    (force notify : Bool) (dir : String) (nodes : List aiNode) (gt : Mat4)
    (acc : List ModelMesh × List TextureEntry × List String)
    (h : AccOK acc) :
    AccOK (processNodeChildren loader scene force notify dir nodes gt acc) ∧
    ∃ ext, (processNodeChildren loader scene force notify dir nodes gt acc).2.1 =
      acc.2.1 ++ ext := by
  cases nodes with
  | nil =>
    exact ⟨h, ⟨[], by simp [processNodeChildren]⟩⟩
  | cons n rest =>
    simp only [processNodeChildren]
    obtain ⟨h1, ⟨ext1, he1⟩⟩ :=
      processNode_inv loader scene force notify dir n gt acc h
    obtain ⟨h2, ⟨ext2, he2⟩⟩ :=
      processNodeChildren_inv loader scene force notify dir rest gt _ h1
    exact ⟨h2, ⟨ext1 ++ ext2, by rw [he2, he1, List.append_assoc]⟩⟩

end

/-- Every geometry produced by `loadModel` satisfies the storage invariant,
and each of its meshes has a non-empty texture list of well-formed
descriptors. -/
theorem loadModel_inv (loader : TexLoader) (readResult : Option aiScene)
    (force notify : Bool) (dir : String) (g : ModelGeometry)
    (h : loadModel loader readResult force notify dir = .ok g) :
    StoreOK g.textureStorage ∧
    ∀ m ∈ g.meshes, m.textures ≠ [] ∧
      ∀ t ∈ m.textures, DescOK g.textureStorage.length t := by
  unfold loadModel at h
  split at h
  · exact absurd h (by simp)
  · rename_i scene
    split at h
    · exact absurd h (by simp)
    · split at h
      · exact absurd h (by simp)
      · rename_i root heqroot
        obtain ⟨r, hr⟩ : (∃ r, processNode loader scene force notify dir root
            Mat4.identity ([], [], []) = r) := ⟨_, rfl⟩
        obtain ⟨meshArray, textureStorage, notices⟩ := r
        rw [hr] at h
        have hinv := processNode_inv loader scene force notify dir root
          Mat4.identity ([], [], []) (by constructor <;> simp [StoreOK])
        rw [hr] at hinv
        obtain ⟨⟨i1, i2⟩, _⟩ := hinv
        simp only [Prod.snd, Prod.fst] at i1 i2
        have hg : g = ⟨meshArray, textureStorage⟩ := by
          simpa using h.symm
        subst hg
        exact ⟨i1, i2⟩

/-- `setName` touches neither the dimensions nor the alpha view, so the
transparency scan is unaffected by it. -/
theorem isOpague_setName (t : Texture) (n : String) :
    isOpague (t.setName n) = isOpague t := rfl

/-- The identity matrix acts as the identity on vectors. -/
theorem Mat4.identity_mulVec (v : Vec4) : Mat4.identity.mulVec v = v := by
  cases v
  simp only [Mat4.identity, Mat4.mulVec, Vec4.smul, Vec4.add, Vec4.mk.injEq]
  refine ⟨by ring, by ring, by ring, by ring⟩

/-- The `(1, 0, 0)` translation shifts a homogeneous position with `w = 1`
by exactly `(1, 0, 0, 0)`. -/
theorem translate100_shift (x y z : Rat) :
    translate100.mulVec ⟨x, y, z, 1⟩ = Vec4.add ⟨1, 0, 0, 0⟩ ⟨x, y, z, 1⟩ := by
  simp only [translate100, Mat4.mulVec, Vec4.smul, Vec4.add, Vec4.mk.injEq]
  refine ⟨by ring, by ring, by ring, by ring⟩

/-- The produced vertex positions, as a list: the supplied matrix applied to
each raw source position with homogeneous coordinate 1. -/
theorem processVertices_map_location (mesh : aiMesh) (transform : Mat4) :
    (processVertices mesh transform).map ModelMesh.Vertex.location =
      mesh.mVertices.map (fun v => transform.mulVec ⟨v.x, v.y, v.z, 1⟩) := by
  apply List.ext_getElem
  · simp [processVertices]
  · intro i h1 h2
    have hi : i < mesh.mVertices.length := by simpa using h2
    simp [processVertices, List.getElem?_eq_getElem hi]

/-! ## Claim theorems -/

/-- C3: flattening is a depth-first traversal in which each node's global
transform is its parent's times its local transform (applying a product
matrix is applying the factors in sequence, and the root starts from the
identity, a left unit); every produced vertex position equals the supplied
matrix applied to the raw source position with homogeneous coordinate 1;
and in the two-node scenario (identity root, child translated by
`(1, 0, 0)`, one mesh each) the child mesh's vertex positions are offset by
exactly `(1, 0, 0)` relative to the root mesh's untransformed positions. -/
theorem c3_transform_flattening :
    (∀ a b : Mat4, ∀ v : Vec4, (a.mul b).mulVec v = a.mulVec (b.mulVec v)) ∧
    (∀ m : Mat4, Mat4.identity.mul m = m) ∧
    (∀ (mesh : aiMesh) (transform : Mat4) (i : Nat),
      i < mesh.mVertices.length →
      ((processVertices mesh transform).getD i default).location =
        transform.mulVec ⟨(mesh.mVertices.getD i default).x,
          (mesh.mVertices.getD i default).y,
          (mesh.mVertices.getD i default).z, 1⟩) ∧
    (∀ loader : TexLoader, ∃ g,
      loadModel loader (some scenarioScene) false false "" = .ok g ∧
      g.meshes.length = 2 ∧
      (g.meshes.getD 0 default).vertices.map ModelMesh.Vertex.location =
        [⟨1, 2, 3, 1⟩, ⟨4, 5, 6, 1⟩] ∧
      (g.meshes.getD 1 default).vertices.map ModelMesh.Vertex.location =
        ((g.meshes.getD 0 default).vertices.map ModelMesh.Vertex.location).map
          (Vec4.add ⟨1, 0, 0, 0⟩)) := by
  refine ⟨Mat4.mulVec_mul, Mat4.identity_mul, processVertices_location, ?_⟩
  intro loader
  refine ⟨_, rfl, rfl, ?_, ?_⟩
  · show (processVertices scenarioMesh0 (Mat4.identity.mul Mat4.identity)).map
      ModelMesh.Vertex.location = [⟨1, 2, 3, 1⟩, ⟨4, 5, 6, 1⟩]
    rw [processVertices_map_location, Mat4.identity_mul]
    rw [List.map_congr_left (fun v _ => Mat4.identity_mulVec ⟨v.x, v.y, v.z, 1⟩)]
    rfl
  · show (processVertices scenarioMesh1
        ((Mat4.identity.mul Mat4.identity).mul translate100)).map
      ModelMesh.Vertex.location =
      ((processVertices scenarioMesh0 (Mat4.identity.mul Mat4.identity)).map
        ModelMesh.Vertex.location).map (Vec4.add ⟨1, 0, 0, 0⟩)
    rw [processVertices_map_location, processVertices_map_location,
      Mat4.identity_mul, Mat4.identity_mul, List.map_map]
    show (scenarioMesh0.mVertices.map
        (fun v => translate100.mulVec ⟨v.x, v.y, v.z, 1⟩)) = _
    apply List.map_congr_left
    intro v _
    show translate100.mulVec ⟨v.x, v.y, v.z, 1⟩ =
      Vec4.add ⟨1, 0, 0, 0⟩ (Mat4.identity.mulVec ⟨v.x, v.y, v.z, 1⟩)
    rw [Mat4.identity_mulVec, translate100_shift]

/-- Witness for C3: the position formula instantiated on the scenario mesh
under the `(1, 0, 0)` translation. -/
theorem c3_transform_flattening_witness :
    0 < scenarioMesh0.mVertices.length ∧
    ((processVertices scenarioMesh0 translate100).getD 0 default).location =
      translate100.mulVec ⟨(scenarioMesh0.mVertices.getD 0 default).x,
        (scenarioMesh0.mVertices.getD 0 default).y,
        (scenarioMesh0.mVertices.getD 0 default).z, 1⟩ :=
  ⟨by decide,
    c3_transform_flattening.2.2.1 scenarioMesh0 translate100 0 (by decide)⟩

/-- C5: after a successful texture load the scan declares the texture opaque
exactly when some texel in the width-by-height grid has non-zero alpha; a
texture whose every scanned texel has zero alpha is discarded — appended
neither to the mesh's texture list nor to the storage pool — and the loop
continues with the remaining references, whatever the channel. -/
theorem c5_transparent_discard (loader : TexLoader) (scene : aiScene)
    (ty dir path : String) (rest : List String) (arr : List ModelMesh.Texture)
    (storage : List TextureEntry) (tex : Texture)
    (hm : meshHasTexture storage arr path = false)
    (hf : findEntryIdx storage path = none)
    (hl : attemptLoad loader scene dir path = .ok tex)
    (hz : ∀ j < tex.dimensions.x, ∀ k < tex.dimensions.y, tex.alphaAt j k = 0) :
    (∀ t : Texture, isOpague t = true ↔
      ∃ j < t.dimensions.x, ∃ k < t.dimensions.y, t.alphaAt j k ≠ 0) ∧
    isOpague tex = false ∧
    loadTexturesLoop loader scene ty dir (path :: rest) arr storage =
      loadTexturesLoop loader scene ty dir rest arr storage := by
  have hop : isOpague tex = false := by
    cases hcase : isOpague tex with
    | false => rfl
    | true =>
      obtain ⟨j, hj, k, hk, hne⟩ := (isOpague_iff tex).mp hcase
      exact absurd (hz j hj k hk) hne
  refine ⟨isOpague_iff, hop, ?_⟩
  exact loadTexturesLoop_transparent loader scene ty dir path rest arr storage
    tex hm hf hl (by rw [isOpague_setName, hop])

/-- Witness for C5: the transparent 1x1 texture returned by `clearLoader`
for a fresh path is dropped from both lists. -/
theorem c5_transparent_discard_witness :
    meshHasTexture [] [] "wood.png" = false ∧
    findEntryIdx [] "wood.png" = none ∧
    attemptLoad clearLoader scenarioScene "" "wood.png" = .ok clearTexture ∧
    (∀ j < clearTexture.dimensions.x, ∀ k < clearTexture.dimensions.y,
      clearTexture.alphaAt j k = 0) ∧
    (isOpague clearTexture = false ∧
      loadTexturesLoop clearLoader scenarioScene "texture_diffuse" ""
          ["wood.png"] [] [] =
        loadTexturesLoop clearLoader scenarioScene "texture_diffuse" "" [] [] []) :=
  ⟨by decide, by decide, by decide, by decide,
    ((c5_transparent_discard clearLoader scenarioScene "texture_diffuse" ""
      "wood.png" [] [] [] clearTexture (by decide) (by decide) (by decide)
      (by decide)).2)⟩

/-- C6: whenever the mesh's material has its opacity attribute present and
exactly 0, `processMesh` returns immediately with an empty texture list and
untouched storage — before any channel (texture or color) is consulted and
regardless of the textures the material carries — with the vertex buffer
already populated (one vertex per source vertex) and the index buffer the
flattened face list. -/
theorem c6_opacity_short_circuit (loader : TexLoader) (mesh : aiMesh)
    (scene : aiScene) (transform : Mat4) (storage : List TextureEntry)
    (dir : String)
    (hop : (scene.mMaterials.getD mesh.mMaterialIndex default).opacity = some 0) :
    processMesh loader mesh scene transform storage dir =
      (⟨processVertices mesh transform, processIndices mesh, []⟩, storage) ∧
    (processMesh loader mesh scene transform storage dir).1.vertices.length =
      mesh.mVertices.length := by
  have hb : ((scene.mMaterials.getD mesh.mMaterialIndex default).opacity ==
      some 0) = true := by
    simp only [beq_iff_eq]
    exact hop
  have heq : processMesh loader mesh scene transform storage dir =
      (⟨processVertices mesh transform, processIndices mesh, []⟩, storage) := by
    simp only [processMesh, hb]
    rfl
  refine ⟨heq, ?_⟩
  rw [heq]
  exact processVertices_length mesh transform

/-- An entry read through `getD` at an in-range index is a member of the
storage. -/
theorem getD_mem_of_lt (l : List TextureEntry) (i : Nat) (h : i < l.length) :
    l.getD i default ∈ l := by
  rw [List.getD_eq_getElem?_getD, List.getElem?_eq_getElem h]
  simp [List.getElem_mem]

/-- Under pairwise-distinct entry names, equal entry names at two in-range
indices force the indices to be equal. -/
theorem nodup_name_index (storage : List TextureEntry)
    (hnodup : (storage.map TextureEntry.name).Nodup) (i j : Nat)
    (hi : i < storage.length) (hj : j < storage.length)
    (h : (storage.getD i default).name = (storage.getD j default).name) :
    i = j := by
  induction storage generalizing i j with
  | nil => simp at hi
  | cons e rest ih =>
    obtain ⟨hhead, htail⟩ := List.nodup_cons.mp hnodup
    have hmem : ∀ k, k < rest.length →
        (rest.getD k default).name ∈ rest.map TextureEntry.name := by
      intro k hk
      exact List.mem_map.mpr ⟨rest.getD k default, getD_mem_of_lt rest k hk, rfl⟩
    cases i with
    | zero =>
      cases j with
      | zero => rfl
      | succ j' =>
        exfalso
        have hj' : j' < rest.length := by simpa using hj
        rw [List.getD_cons_zero, List.getD_cons_succ] at h
        rw [h] at hhead
        exact hhead (hmem j' hj')
    | succ i' =>
      cases j with
      | zero =>
        exfalso
        have hi' : i' < rest.length := by simpa using hi
        rw [List.getD_cons_succ, List.getD_cons_zero] at h
        rw [← h] at hhead
        exact hhead (hmem i' hi')
      | succ j' =>
        have hi' : i' < rest.length := by simpa using hi
        have hj' : j' < rest.length := by simpa using hj
        rw [List.getD_cons_succ, List.getD_cons_succ] at h
        exact congrArg Nat.succ (ih htail i' j' hi' hj' h)

/-- Witness for C6: the opacity-zero material with a diffuse texture
reference still yields an empty texture list. -/
theorem c6_opacity_short_circuit_witness :
    (opacityScene.mMaterials.getD scenarioMesh0.mMaterialIndex default).opacity =
      some 0 ∧
    (opacityScene.mMaterials.getD scenarioMesh0.mMaterialIndex
      default).diffuseTextures ≠ [] ∧
    processMesh failLoader scenarioMesh0 opacityScene Mat4.identity [] "" =
      (⟨processVertices scenarioMesh0 Mat4.identity,
        processIndices scenarioMesh0, []⟩, []) :=
  ⟨by decide, by decide,
    (c6_opacity_short_circuit failLoader scenarioMesh0 opacityScene
      Mat4.identity [] "" (by decide)).1⟩

/-- C4: a texture reference whose source name already names a storage entry
reuses that entry — the appended descriptor references the first entry of
that name, no new entry is appended, the loader is not consulted (the step
holds for every loader) — and in every geometry `loadModel` produces,
storage entry names are pairwise distinct, so any two descriptors whose
referenced texture names agree reference the same storage entry. -/
theorem c4_texture_dedup :
    (∀ (loader : TexLoader) (scene : aiScene) (ty dir path : String)
      (rest : List String) (arr : List ModelMesh.Texture)
      (storage : List TextureEntry) (j : Nat),
      StoreOK storage →
      meshHasTexture storage arr path = false →
      findEntryIdx storage path = some j →
      loadTexturesLoop loader scene ty dir (path :: rest) arr storage =
        loadTexturesLoop loader scene ty dir rest
          (arr ++ [{ texture := some j, type := ty, hasTexture := true }])
          storage) ∧
    (∀ (loader : TexLoader) (readResult : Option aiScene) (force notify : Bool)
      (dir : String) (g : ModelGeometry),
      loadModel loader readResult force notify dir = .ok g →
      (g.textureStorage.map TextureEntry.name).Nodup ∧
      (∀ m1 ∈ g.meshes, ∀ m2 ∈ g.meshes, ∀ t1 ∈ m1.textures, ∀ t2 ∈ m2.textures,
        ∀ i j : Nat, t1.texture = some i → t2.texture = some j →
        pointeeName g.textureStorage t1 = pointeeName g.textureStorage t2 →
        i = j)) := by
  constructor
  · intro loader scene ty dir path rest arr storage j hs hm hf
    obtain ⟨hjlt, hjname⟩ := findEntryIdx_lt storage path j hf
    rw [loadTexturesLoop_reuse loader scene ty dir path rest arr storage j hm hf,
      setEntryTexName_id storage j path hs.2 hjname hjlt]
  · intro loader readResult force notify dir g h
    obtain ⟨hs, hm⟩ := loadModel_inv loader readResult force notify dir g h
    refine ⟨hs.1, ?_⟩
    intro m1 hm1 m2 hm2 t1 ht1 t2 ht2 i j hti htj hpn
    have hb : ∀ (m : ModelMesh), m ∈ g.meshes → ∀ t ∈ m.textures, ∀ k : Nat,
        t.texture = some k → k < g.textureStorage.length := by
      intro m hmm t ht k htk
      obtain ⟨-, hd⟩ := hm m hmm
      obtain ⟨e1, e2, -⟩ := hd t ht
      cases hht : t.hasTexture with
      | false =>
        rw [e2 hht] at htk
        exact absurd htk (by simp)
      | true =>
        obtain ⟨k', hk1, hk2⟩ := e1 hht
        rw [htk] at hk1
        have : k = k' := ((Option.some.injEq k' k).mp hk1.symm).symm
        rw [this]
        exact hk2
    have hbi : i < g.textureStorage.length := hb m1 hm1 t1 ht1 i hti
    have hbj : j < g.textureStorage.length := hb m2 hm2 t2 ht2 j htj
    have hn1 : pointeeName g.textureStorage t1 =
        (g.textureStorage.getD i default).name := by
      simp only [pointeeName, hti]
      exact hs.2 _ (getD_mem_of_lt _ i hbi)
    have hn2 : pointeeName g.textureStorage t2 =
        (g.textureStorage.getD j default).name := by
      simp only [pointeeName, htj]
      exact hs.2 _ (getD_mem_of_lt _ j hbj)
    refine nodup_name_index g.textureStorage hs.1 i j hbi hbj ?_
    rw [← hn1, ← hn2, hpn]

/-- Witness for C4: a reference to the already-stored `wood.png` is resolved
to entry 0 without touching the storage. -/
theorem c4_texture_dedup_witness :
    StoreOK woodStorage ∧
    meshHasTexture woodStorage [] "wood.png" = false ∧
    findEntryIdx woodStorage "wood.png" = some 0 ∧
    loadTexturesLoop failLoader scenarioScene "texture_diffuse" ""
        ["wood.png"] [] woodStorage =
      loadTexturesLoop failLoader scenarioScene "texture_diffuse" "" []
        ([] ++ [{ texture := some 0, type := "texture_diffuse",
                  hasTexture := true }]) woodStorage :=
  ⟨⟨by decide, by decide⟩, by decide, by decide,
    c4_texture_dedup.1 failLoader scenarioScene "texture_diffuse" "" "wood.png"
      [] [] woodStorage 0 ⟨by decide, by decide⟩ (by decide) (by decide)⟩

/-- C7: on the first load failure in a channel the appended descriptor is
the forced-color diffuse one (`useForcedColor`, no texture, diffuse color
tag), the rest of the channel is abandoned and failure is reported; a
failing diffuse channel finalizes the mesh immediately with exactly the
descriptors that channel collected (later channels are not consulted); and
the failure never fails the surrounding `loadModel` call, which succeeds on
every complete rooted scene. -/
theorem c7_texture_failure_recovery :
    (∀ (loader : TexLoader) (scene : aiScene) (ty dir path : String)
      (rest : List String) (arr : List ModelMesh.Texture)
      (storage : List TextureEntry),
      meshHasTexture storage arr path = false →
      findEntryIdx storage path = none →
      attemptLoad loader scene dir path = .error () →
      loadTexturesLoop loader scene ty dir (path :: rest) arr storage =
        (false, arr ++ [forcedColorTexture], storage)) ∧
    (forcedColorTexture.useForcedColor = true ∧
      forcedColorTexture.hasTexture = false ∧
      forcedColorTexture.type = "color_diffuse") ∧
    (∀ (loader : TexLoader) (mesh : aiMesh) (scene : aiScene) (transform : Mat4)
      (storage : List TextureEntry) (dir : String) (arr : List ModelMesh.Texture)
      (st : List TextureEntry),
      ¬(scene.mMaterials.getD mesh.mMaterialIndex default).opacity = some 0 →
      diffuseStep loader scene (scene.mMaterials.getD mesh.mMaterialIndex default)
        storage dir = (false, arr, st) →
      processMesh loader mesh scene transform storage dir =
        (⟨processVertices mesh transform, processIndices mesh, arr⟩, st)) ∧
    (∀ (loader : TexLoader) (scene : aiScene) (force notify : Bool)
      (dir : String) (root : aiNode),
      scene.flagsIncomplete = false → scene.mRootNode = some root →
      ∃ g, loadModel loader (some scene) force notify dir = .ok g) := by
  refine ⟨?_, ⟨rfl, rfl, rfl⟩, ?_, ?_⟩
  · intro loader scene ty dir path rest arr storage hm hf hl
    exact loadTexturesLoop_fail loader scene ty dir path rest arr storage hm hf hl
  · intro loader mesh scene transform storage dir arr st hop hd
    have hb : ((scene.mMaterials.getD mesh.mMaterialIndex default).opacity ==
        some 0) = false := by
      simp only [beq_eq_false_iff_ne, ne_eq]
      exact hop
    simp only [processMesh, hb, Bool.false_eq_true, if_false, hd]
  · intro loader scene force notify dir root hflag hroot
    obtain ⟨r, hr⟩ : (∃ r, processNode loader scene force notify dir root
        Mat4.identity ([], [], []) = r) := ⟨_, rfl⟩
    obtain ⟨a, b, c⟩ := r
    refine ⟨⟨a, b⟩, ?_⟩
    simp only [loadModel, hflag, Bool.false_eq_true, if_false, hroot, hr]

/-- Witness for C7: a missing local texture aborts the channel with the
forced-color descriptor, leaving the second reference unattempted. -/
theorem c7_texture_failure_recovery_witness :
    meshHasTexture [] [] "wood.png" = false ∧
    findEntryIdx [] "wood.png" = none ∧
    attemptLoad failLoader scenarioScene "" "wood.png" = .error () ∧
    loadTexturesLoop failLoader scenarioScene "texture_diffuse" ""
        ["wood.png", "oak.png"] [] [] =
      (false, [] ++ [forcedColorTexture], []) :=
  ⟨by decide, by decide, by decide,
    c7_texture_failure_recovery.1 failLoader scenarioScene "texture_diffuse" ""
      "wood.png" ["oak.png"] [] [] (by decide) (by decide) (by decide)⟩

/-- C8: for a mesh that MeshBuilder returns with an empty texture list,
`forceRenderInvisible` appends exactly one forced-color diffuse descriptor
and keeps the mesh; otherwise the mesh is dropped and the informational
notice naming the source mesh is emitted exactly when
`notifyInvisibleDropped` is also set; consequently every mesh of every
`loadModel` result has a non-empty texture list. -/
theorem c8_invisible_mesh_policy :
    (∀ (loader : TexLoader) (scene : aiScene) (gt : Mat4) (notify : Bool)
      (dir : String) (mi : Nat) (rest : List Nat) (meshes : List ModelMesh)
      (storage : List TextureEntry) (notices : List String)
      (loadedMesh : ModelMesh) (storageA : List TextureEntry),
      processMesh loader (scene.mMeshes.getD mi default) scene gt storage dir =
        (loadedMesh, storageA) →
      loadedMesh.textures = [] →
      processNodeMeshes loader scene gt true notify dir (mi :: rest)
          (meshes, storage, notices) =
        processNodeMeshes loader scene gt true notify dir rest
          (meshes ++ [{ loadedMesh with textures := [forcedInvisibleTexture] }],
            storageA, notices)) ∧
    (∀ (loader : TexLoader) (scene : aiScene) (gt : Mat4) (dir : String)
      (mi : Nat) (rest : List Nat) (meshes : List ModelMesh)
      (storage : List TextureEntry) (notices : List String)
      (loadedMesh : ModelMesh) (storageA : List TextureEntry),
      processMesh loader (scene.mMeshes.getD mi default) scene gt storage dir =
        (loadedMesh, storageA) →
      loadedMesh.textures = [] →
      processNodeMeshes loader scene gt false true dir (mi :: rest)
          (meshes, storage, notices) =
        processNodeMeshes loader scene gt false true dir rest
          (meshes, storageA,
            notices ++ [(scene.mMeshes.getD mi default).mName]) ∧
      processNodeMeshes loader scene gt false false dir (mi :: rest)
          (meshes, storage, notices) =
        processNodeMeshes loader scene gt false false dir rest
          (meshes, storageA, notices)) ∧
    (forcedInvisibleTexture.useForcedColor = true ∧
      forcedInvisibleTexture.hasTexture = false ∧
      forcedInvisibleTexture.type = "color_diffuse") ∧
    (∀ (loader : TexLoader) (readResult : Option aiScene) (force notify : Bool)
      (dir : String) (g : ModelGeometry),
      loadModel loader readResult force notify dir = .ok g →
      ∀ m ∈ g.meshes, m.textures ≠ []) := by
  refine ⟨?_, ?_, ⟨rfl, rfl, rfl⟩, ?_⟩
  · intro loader scene gt notify dir mi rest meshes storage notices
      loadedMesh storageA hpm hempty
    have hie : loadedMesh.textures.isEmpty = true := by simp [hempty]
    simp only [processNodeMeshes, hpm, hie, if_true]
  · intro loader scene gt dir mi rest meshes storage notices
      loadedMesh storageA hpm hempty
    have hie : loadedMesh.textures.isEmpty = true := by simp [hempty]
    constructor
    · simp only [processNodeMeshes, hpm, hie, if_true, Bool.false_eq_true,
        if_false]
    · simp only [processNodeMeshes, hpm, hie, if_true, Bool.false_eq_true,
        if_false, List.append_nil]
  · intro loader readResult force notify dir g h
    intro m hm
    exact ((loadModel_inv loader readResult force notify dir g h).2 m hm).1

/-! ## Cache parser error analysis -/

/-- A failing `pbind` fails in its first or in its second stage. -/
theorem pbind_error {α β : Type} (x : Except LoadError (α × List Cell))
    (f : α → List Cell → Except LoadError (β × List Cell)) (e : LoadError)
    (h : pbind x f = .error e) :
    x = .error e ∨ ∃ a s, x = .ok (a, s) ∧ f a s = .error e := by
  cases x with
  | error e' =>
    left
    simpa [pbind] using h
  | ok p =>
    obtain ⟨a, s⟩ := p
    right
    exact ⟨a, s, rfl, h⟩

/-- Error propagation through `pbind`. -/
theorem pbind_good {α β : Type} (x : Except LoadError (α × List Cell))
    (f : α → List Cell → Except LoadError (β × List Cell))
    (hx : ∀ e, x = .error e → GoodErr e)
    (hf : ∀ a s e, f a s = .error e → GoodErr e) :
    ∀ e, pbind x f = .error e → GoodErr e := by
  intro e h
  rcases pbind_error x f e h with h1 | ⟨a, s, -, h2⟩
  · exact hx e h1
  · exact hf a s e h2

/-- The primitive readers fail only with the misaligned-stream marker. -/
theorem readI8_error (s : List Cell) (e : LoadError) (h : readI8 s = .error e) :
    e = .badStream := by
  cases s with
  | nil => exact (by simpa [readI8] using h : LoadError.badStream = e).symm
  | cons c r => cases c <;> simp_all [readI8]

/-- As `readI8_error`, for `readI32`. -/
theorem readI32_error (s : List Cell) (e : LoadError) (h : readI32 s = .error e) :
    e = .badStream := by
  cases s with
  | nil => exact (by simpa [readI32] using h : LoadError.badStream = e).symm
  | cons c r => cases c <;> simp_all [readI32]

/-- As `readI8_error`, for `readU32`. -/
theorem readU32_error (s : List Cell) (e : LoadError) (h : readU32 s = .error e) :
    e = .badStream := by
  cases s with
  | nil => exact (by simpa [readU32] using h : LoadError.badStream = e).symm
  | cons c r => cases c <;> simp_all [readU32]

/-- As `readI8_error`, for `readBool`. -/
theorem readBool_error (s : List Cell) (e : LoadError) (h : readBool s = .error e) :
    e = .badStream := by
  cases s with
  | nil => exact (by simpa [readBool] using h : LoadError.badStream = e).symm
  | cons c r => cases c <;> simp_all [readBool]

/-- As `readI8_error`, for `readF32`. -/
theorem readF32_error (s : List Cell) (e : LoadError) (h : readF32 s = .error e) :
    e = .badStream := by
  cases s with
  | nil => exact (by simpa [readF32] using h : LoadError.badStream = e).symm
  | cons c r => cases c <;> simp_all [readF32]

/-- As `readI8_error`, for `readVtx`. -/
theorem readVtx_error (s : List Cell) (e : LoadError) (h : readVtx s = .error e) :
    e = .badStream := by
  cases s with
  | nil => exact (by simpa [readVtx] using h : LoadError.badStream = e).symm
  | cons c r => cases c <;> simp_all [readVtx]

/-- As `readI8_error`, for `readStr`. -/
theorem readStr_error (n : Int) (s : List Cell) (e : LoadError)
    (h : readStr n s = .error e) : e = .badStream := by
  cases s with
  | nil => exact (by simpa [readStr] using h : LoadError.badStream = e).symm
  | cons c r =>
    cases c <;> simp_all [readStr]
    split at h <;> simp_all

/-- As `readI8_error`, for `readBytes`. -/
theorem readBytes_error (n : Int) (s : List Cell) (e : LoadError)
    (h : readBytes n s = .error e) : e = .badStream := by
  cases s with
  | nil => exact (by simpa [readBytes] using h : LoadError.badStream = e).symm
  | cons c r =>
    cases c <;> simp_all [readBytes]
    split at h <;> simp_all

/-- `stringToFormat` fails only with the missing-case error. -/
theorem stringToFormat_error (f : String) (e : LoadError)
    (h : stringToFormat f = .error e) : e = .missingCase := by
  unfold stringToFormat at h
  split_ifs at h <;> simp_all

/-- `stringToDataType` fails only with the missing-case error. -/
theorem stringToDataType_error (f : String) (e : LoadError)
    (h : stringToDataType f = .error e) : e = .missingCase := by
  unfold stringToDataType at h
  split_ifs at h <;> simp_all

/-- A failing texture-entry parse never reports the cannot-open error or a
version mismatch. -/
theorem readTextureEntry_good (s : List Cell) :
    ∀ e, readTextureEntry s = .error e → GoodErr e := by
  unfold readTextureEntry
  apply pbind_good
  · intro e h
    simp [readI32_error _ _ h, GoodErr]
  · intro nameSize s
    split
    · intro e h
      simp only [Except.error.injEq] at h
      subst h
      simp [GoodErr]
    · apply pbind_good
      · intro e h
        simp [readStr_error _ _ _ h, GoodErr]
      · intro name s
        apply pbind_good
        · intro e h
          simp [readU32_error _ _ h, GoodErr]
        · intro dimx s
          apply pbind_good
          · intro e h
            simp [readU32_error _ _ h, GoodErr]
          · intro dimy s
            apply pbind_good
            · intro e h
              simp [readU32_error _ _ h, GoodErr]
            · intro dimz s
              apply pbind_good
              · intro e h
                simp [readStr_error _ _ _ h, GoodErr]
              · intro formatString s
                split
                · intro e h
                  simp only [Except.error.injEq] at h
                  subst h
                  rename_i e' heq
                  simp [stringToFormat_error _ _ heq, GoodErr]
                · apply pbind_good
                  · intro e h
                    simp [readU32_error _ _ h, GoodErr]
                  · intro rawInternalFormat s
                    apply pbind_good
                    · intro e h
                      simp [readStr_error _ _ _ h, GoodErr]
                    · intro dataTypeString s
                      split
                      · intro e h
                        simp only [Except.error.injEq] at h
                        subst h
                        rename_i e' heq
                        simp [stringToDataType_error _ _ heq, GoodErr]
                      · apply pbind_good
                        · intro e h
                          simp [readI32_error _ _ h, GoodErr]
                        · intro textureSize s
                          split
                          · intro e h
                            simp only [Except.error.injEq] at h
                            subst h
                            simp [GoodErr]
                          · apply pbind_good
                            · intro e h
                              simp [readBytes_error _ _ _ h, GoodErr]
                            · intro data s e h
                              exact absurd h (by simp)

/-- The texture-entry loop never reports the cannot-open error or a version
mismatch. -/
theorem readTextureEntries_good (n : Nat) :
    ∀ acc s e, readTextureEntries n acc s = .error e → GoodErr e := by
  induction n with
  | zero =>
    intro acc s e h
    exact absurd h (by simp [readTextureEntries])
  | succ m ih =>
    intro acc s
    unfold readTextureEntries
    apply pbind_good
    · exact readTextureEntry_good s
    · intro a s' e h
      exact ih (acc ++ [a]) s' e h

/-- The vertex loop never reports the cannot-open error or a version
mismatch. -/
theorem readVertices_good (n : Nat) :
    ∀ acc s e, readVertices n acc s = .error e → GoodErr e := by
  induction n with
  | zero =>
    intro acc s e h
    exact absurd h (by simp [readVertices])
  | succ m ih =>
    intro acc s
    unfold readVertices
    apply pbind_good
    · intro e h
      simp [readVtx_error _ _ h, GoodErr]
    · intro a s' e h
      exact ih (acc ++ [a]) s' e h

/-- The index loop never reports the cannot-open error or a version
mismatch. -/
theorem readIndices_good (n : Nat) :
    ∀ acc s e, readIndices n acc s = .error e → GoodErr e := by
  induction n with
  | zero =>
    intro acc s e h
    exact absurd h (by simp [readIndices])
  | succ m ih =>
    intro acc s
    unfold readIndices
    apply pbind_good
    · intro e h
      simp [readU32_error _ _ h, GoodErr]
    · intro a s' e h
      exact ih (acc ++ [a]) s' e h

/-- A failing mesh-texture parse never reports the cannot-open error or a
version mismatch. -/
theorem readMeshTexture_good (storage : List TextureEntry) (s : List Cell) :
    ∀ e, readMeshTexture storage s = .error e → GoodErr e := by
  unfold readMeshTexture
  apply pbind_good
  · intro e h
    simp [readI32_error _ _ h, GoodErr]
  · intro typeSize s
    split
    · intro e h
      simp only [Except.error.injEq] at h
      subst h
      simp [GoodErr]
    · apply pbind_good
      · intro e h
        simp [readStr_error _ _ _ h, GoodErr]
      · intro type s
        apply pbind_good
        · intro e h
          simp [readBool_error _ _ h, GoodErr]
        · intro hasTexture s
          apply pbind_good
          · intro e h
            simp [readBool_error _ _ h, GoodErr]
          · intro useForcedColor s
            apply pbind_good
            · intro e h
              simp [readF32_error _ _ h, GoodErr]
            · intro r s
              apply pbind_good
              · intro e h
                simp [readF32_error _ _ h, GoodErr]
              · intro g s
                apply pbind_good
                · intro e h
                  simp [readF32_error _ _ h, GoodErr]
                · intro b s
                  split
                  · apply pbind_good
                    · intro e h
                      simp [readU32_error _ _ h, GoodErr]
                    · intro index s
                      split
                      · intro e h
                        simp only [Except.error.injEq] at h
                        subst h
                        simp [GoodErr]
                      · intro e h
                        exact absurd h (by simp)
                  · intro e h
                    exact absurd h (by simp)

/-- The mesh-texture loop never reports the cannot-open error or a version
mismatch. -/
theorem readMeshTextures_good (storage : List TextureEntry) (n : Nat) :
    ∀ acc s e, readMeshTextures storage n acc s = .error e → GoodErr e := by
  induction n with
  | zero =>
    intro acc s e h
    exact absurd h (by simp [readMeshTextures])
  | succ m ih =>
    intro acc s
    unfold readMeshTextures
    apply pbind_good
    · exact readMeshTexture_good storage s
    · intro a s' e h
      exact ih (acc ++ [a]) s' e h

/-- A failing mesh parse never reports the cannot-open error or a version
mismatch. -/
theorem readMesh_good (storage : List TextureEntry) (s : List Cell) :
    ∀ e, readMesh storage s = .error e → GoodErr e := by
  unfold readMesh
  apply pbind_good
  · intro e h
    simp [readI32_error _ _ h, GoodErr]
  · intro nVertices s
    split
    · intro e h
      simp only [Except.error.injEq] at h
      subst h
      simp [GoodErr]
    · apply pbind_good
      · exact readVertices_good _ [] s
      · intro vertexArray s
        apply pbind_good
        · intro e h
          simp [readI32_error _ _ h, GoodErr]
        · intro nIndices s
          split
          · intro e h
            simp only [Except.error.injEq] at h
            subst h
            simp [GoodErr]
          · apply pbind_good
            · exact readIndices_good _ [] s
            · intro indexArray s
              apply pbind_good
              · intro e h
                simp [readI32_error _ _ h, GoodErr]
              · intro nTextures s
                split
                · intro e h
                  simp only [Except.error.injEq] at h
                  subst h
                  simp [GoodErr]
                · apply pbind_good
                  · exact readMeshTextures_good storage _ [] s
                  · intro textureArray s e h
                    exact absurd h (by simp)

/-- The mesh loop never reports the cannot-open error or a version
mismatch. -/
theorem readMeshes_good (storage : List TextureEntry) (n : Nat) :
    ∀ acc s e, readMeshes storage n acc s = .error e → GoodErr e := by
  induction n with
  | zero =>
    intro acc s e h
    exact absurd h (by simp [readMeshes])
  | succ m ih =>
    intro acc s
    unfold readMeshes
    apply pbind_good
    · exact readMesh_good storage s
    · intro a s' e h
      exact ih (acc ++ [a]) s' e h

/-- A successful `readI8` means the stream starts with an `int8` cell. -/
theorem readI8_ok (s : List Cell) (v : Int) (s' : List Cell)
    (h : readI8 s = .ok (v, s')) : s = Cell.i8 v :: s' := by
  cases s with
  | nil => exact absurd h (by simp [readI8])
  | cons c r =>
    cases c <;> simp_all [readI8]

/-- A failing parse of an opened cache stream never reports the cannot-open
error, and it reports a version mismatch exactly when the stream starts with
a version byte other than the current one. -/
theorem readGeometry_error_analysis (s : List Cell) :
    (∀ e, readGeometry s = .error e → e ≠ .readErr) ∧
    (readGeometry s = .error (.corrupt .version) ↔
      ∃ v rest, s = Cell.i8 v :: rest ∧ v ≠ CurrentCacheVersion) := by
  have hbody : ∀ v s', (v != CurrentCacheVersion) = false →
      ∀ e, (if v != CurrentCacheVersion then
          Except.error (LoadError.corrupt CorruptKind.version)
        else
          pbind (readI32 s') fun nTextureEntries s =>
          pbind (readTextureEntries (loopCount nTextureEntries) [] s)
            fun storage s =>
          pbind (readI32 s) fun nMeshes s =>
          if nMeshes == 0 then Except.error (LoadError.corrupt CorruptKind.noMeshes)
          else
            pbind (readMeshes storage (loopCount nMeshes) [] s) fun meshes s =>
            Except.ok ((⟨meshes, storage⟩ : ModelGeometry), s)) = .error e →
        GoodErr e := by
    intro v s' hv e h
    rw [hv] at h
    simp only [Bool.false_eq_true, if_false] at h
    revert h
    revert e
    apply pbind_good
    · intro e h
      simp [readI32_error _ _ h, GoodErr]
    · intro nTextureEntries s
      apply pbind_good
      · exact readTextureEntries_good _ [] s
      · intro storage s
        apply pbind_good
        · intro e h
          simp [readI32_error _ _ h, GoodErr]
        · intro nMeshes s
          split
          · intro e h
            simp only [Except.error.injEq] at h
            subst h
            simp [GoodErr]
          · apply pbind_good
            · exact readMeshes_good _ _ [] s
            · intro meshes s e h
              exact absurd h (by simp)
  constructor
  · intro e h hre
    subst hre
    unfold readGeometry at h
    rcases pbind_error _ _ _ h with h1 | ⟨v, s', hok, h2⟩
    · exact absurd (readI8_error _ _ h1) (by simp)
    · cases hv : (v != CurrentCacheVersion) with
      | true =>
        rw [hv] at h2
        simp at h2
      | false =>
        exact absurd rfl (hbody v s' hv _ h2).1
  · constructor
    · intro h
      unfold readGeometry at h
      rcases pbind_error _ _ _ h with h1 | ⟨v, s', hok, h2⟩
      · exact absurd (readI8_error _ _ h1) (by simp)
      · refine ⟨v, s', readI8_ok s v s' hok, ?_⟩
        cases hv : (v != CurrentCacheVersion) with
        | true => simpa using hv
        | false =>
          exact absurd rfl (hbody v s' hv _ h2).2
    · rintro ⟨v, rest, rfl, hv⟩
      have hvb : (v != CurrentCacheVersion) = true := by simpa using hv
      unfold readGeometry
      simp [readI8, pbind, hvb]

/-- `loadCachedFile` on an opened stream forwards exactly the parse
errors. -/
theorem loadCachedFile_error_iff (s : List Cell) (e : LoadError) :
    loadCachedFile (some s) = .error e ↔ readGeometry s = .error e := by
  unfold loadCachedFile
  cases hr : readGeometry s with
  | error e' => simp [hr]
  | ok p =>
    obtain ⟨g, s'⟩ := p
    simp [hr]

/-- C2: `loadCachedFile` fails with `CacheReadError` exactly when the source
cannot be opened; with the version-mismatch `CacheCorruptionError` exactly
when the stream starts with a version byte other than the current one
(regardless of the remaining content); a texture-entry count of zero is
valid and yields empty storage; and each count the format requires to be
non-zero (mesh count, per-mesh vertex/index/texture counts, name, type and
pixel byte lengths) raises the corresponding `CacheCorruptionError` when
zero, as does a stored texture index outside the decoded storage —
whatever the remaining stream content. -/
theorem c2_cache_corruption :
    loadCachedFile none = .error .readErr ∧
    (∀ s : List Cell, loadCachedFile (some s) ≠ .error .readErr) ∧
    (∀ s : List Cell, loadCachedFile (some s) = .error (.corrupt .version) ↔
      ∃ v rest, s = Cell.i8 v :: rest ∧ v ≠ CurrentCacheVersion) ∧
    (∃ g, loadCachedFile (some zeroEntryStream) = .ok g ∧
      g.textureStorage = []) ∧
    (∀ rest, loadCachedFile (some (Cell.i8 1 :: Cell.i32 0 :: Cell.i32 0 ::
      rest)) = .error (.corrupt .noMeshes)) ∧
    (∀ rest, loadCachedFile (some (Cell.i8 1 :: Cell.i32 1 :: Cell.i32 0 ::
      rest)) = .error (.corrupt .noTexName)) ∧
    (∀ rest, loadCachedFile (some (Cell.i8 1 :: Cell.i32 1 :: Cell.i32 1 ::
      Cell.strCell "a" :: Cell.u32 1 :: Cell.u32 1 :: Cell.u32 1 ::
      Cell.strCell "Red " :: Cell.u32 0 :: Cell.strCell "ubyt" ::
      Cell.i32 0 :: rest)) = .error (.corrupt .noTexSize)) ∧
    (∀ rest, loadCachedFile (some (Cell.i8 1 :: Cell.i32 0 :: Cell.i32 1 ::
      Cell.i32 0 :: rest)) = .error (.corrupt .noVertices)) ∧
    (∀ rest, loadCachedFile (some (Cell.i8 1 :: Cell.i32 0 :: Cell.i32 1 ::
      Cell.i32 1 :: Cell.vtx default :: Cell.i32 0 :: rest)) =
      .error (.corrupt .noIndices)) ∧
    (∀ rest, loadCachedFile (some (Cell.i8 1 :: Cell.i32 0 :: Cell.i32 1 ::
      Cell.i32 1 :: Cell.vtx default :: Cell.i32 1 :: Cell.u32 0 ::
      Cell.i32 0 :: rest)) = .error (.corrupt .noTextures)) ∧
    (∀ rest, loadCachedFile (some (Cell.i8 1 :: Cell.i32 0 :: Cell.i32 1 ::
      Cell.i32 1 :: Cell.vtx default :: Cell.i32 1 :: Cell.u32 0 ::
      Cell.i32 1 :: Cell.i32 0 :: rest)) = .error (.corrupt .noTexType)) ∧
    (∀ rest, loadCachedFile (some (Cell.i8 1 :: Cell.i32 1 :: Cell.i32 1 ::
      Cell.strCell "a" :: Cell.u32 1 :: Cell.u32 1 :: Cell.u32 1 ::
      Cell.strCell "Red " :: Cell.u32 0 :: Cell.strCell "ubyt" ::
      Cell.i32 1 :: Cell.bytesCell [5] :: Cell.i32 1 :: Cell.i32 1 ::
      Cell.vtx default :: Cell.i32 1 :: Cell.u32 0 :: Cell.i32 1 ::
      Cell.i32 1 :: Cell.strCell "a" :: Cell.boolCell true ::
      Cell.boolCell false :: Cell.f32 0 :: Cell.f32 0 :: Cell.f32 0 ::
      Cell.u32 1 :: rest)) = .error (.corrupt .indexRange)) := by
  refine ⟨rfl, ?_, ?_, ⟨_, rfl, rfl⟩, fun rest => rfl, fun rest => rfl,
    fun rest => rfl, fun rest => rfl, fun rest => rfl, fun rest => rfl,
    fun rest => rfl, fun rest => rfl⟩
  · intro s h
    rw [loadCachedFile_error_iff] at h
    exact absurd rfl ((readGeometry_error_analysis s).1 _ h)
  · intro s
    rw [loadCachedFile_error_iff]
    exact (readGeometry_error_analysis s).2

/-- Witness for C2: a stream starting with version byte 2 is rejected as a
version mismatch. -/
theorem c2_cache_corruption_witness :
    loadCachedFile (some [Cell.i8 2]) = .error (.corrupt .version) :=
  (c2_cache_corruption.2.2.1 [Cell.i8 2]).mpr ⟨2, [], rfl, by decide⟩

/-- A successful `pbind` succeeds in both stages. -/
theorem pbind_ok {α β : Type} (x : Except LoadError (α × List Cell))
    (f : α → List Cell → Except LoadError (β × List Cell)) (b : β × List Cell)
    (h : pbind x f = .ok b) :
    ∃ a s, x = .ok (a, s) ∧ f a s = .ok b := by
  cases x with
  | error e => simp [pbind] at h
  | ok p =>
    obtain ⟨a, s⟩ := p
    exact ⟨a, s, rfl, h⟩

/-- Every descriptor the cache reader produces is representation
consistent: a stored-and-checked index exactly under `hasTexture`. -/
theorem readMeshTexture_shape (storage : List TextureEntry) (s : List Cell)
    (t : ModelMesh.Texture) (s' : List Cell)
    (h : readMeshTexture storage s = .ok (t, s')) :
    RepOK storage.length t := by
  unfold readMeshTexture at h
  obtain ⟨typeSize, s1, h1, h⟩ := pbind_ok _ _ _ h
  split at h
  · exact absurd h (by simp)
  · obtain ⟨type, s2, h2, h⟩ := pbind_ok _ _ _ h
    obtain ⟨hasTexture, s3, h3, h⟩ := pbind_ok _ _ _ h
    obtain ⟨useForcedColor, s4, h4, h⟩ := pbind_ok _ _ _ h
    obtain ⟨r, s5, h5, h⟩ := pbind_ok _ _ _ h
    obtain ⟨gg, s6, h6, h⟩ := pbind_ok _ _ _ h
    obtain ⟨b, s7, h7, h⟩ := pbind_ok _ _ _ h
    split at h
    · next hht =>
      obtain ⟨index, s8, h8, h⟩ := pbind_ok _ _ _ h
      split at h
      · exact absurd h (by simp)
      · next hidx =>
        simp only [Except.ok.injEq, Prod.mk.injEq] at h
        obtain ⟨ht, -⟩ := h
        subst ht
        exact ⟨fun _ => ⟨index, rfl, by omega⟩, fun hf => by simp [hht] at hf⟩
    · next hht =>
      simp only [Except.ok.injEq, Prod.mk.injEq] at h
      obtain ⟨ht, -⟩ := h
      subst ht
      have hb : hasTexture = false := by
        simpa using hht
      exact ⟨fun htr => by simp [hb] at htr, fun _ => rfl⟩

/-- The mesh-texture loop preserves representation consistency of the
accumulated descriptors. -/
theorem readMeshTextures_shape (storage : List TextureEntry) (n : Nat) :
    ∀ acc s out s', readMeshTextures storage n acc s = .ok (out, s') →
    (∀ t ∈ acc, RepOK storage.length t) → ∀ t ∈ out, RepOK storage.length t := by
  induction n with
  | zero =>
    intro acc s out s' h hacc
    simp only [readMeshTextures, Except.ok.injEq, Prod.mk.injEq] at h
    obtain ⟨ho, -⟩ := h
    subst ho
    exact hacc
  | succ m ih =>
    intro acc s out s' h hacc
    unfold readMeshTextures at h
    obtain ⟨t0, s1, h1, h⟩ := pbind_ok _ _ _ h
    refine ih (acc ++ [t0]) s1 out s' h ?_
    intro t ht
    rcases List.mem_append.mp ht with hm | hm
    · exact hacc t hm
    · have := List.mem_singleton.mp hm
      subst this
      exact readMeshTexture_shape storage s t s1 h1

/-- Every descriptor of a cached mesh is representation consistent. -/
theorem readMesh_shape (storage : List TextureEntry) (s : List Cell)
    (m : ModelMesh) (s' : List Cell) (h : readMesh storage s = .ok (m, s')) :
    ∀ t ∈ m.textures, RepOK storage.length t := by
  unfold readMesh at h
  obtain ⟨nVertices, s1, h1, h⟩ := pbind_ok _ _ _ h
  split at h
  · exact absurd h (by simp)
  · obtain ⟨vertexArray, s2, h2, h⟩ := pbind_ok _ _ _ h
    obtain ⟨nIndices, s3, h3, h⟩ := pbind_ok _ _ _ h
    split at h
    · exact absurd h (by simp)
    · obtain ⟨indexArray, s4, h4, h⟩ := pbind_ok _ _ _ h
      obtain ⟨nTextures, s5, h5, h⟩ := pbind_ok _ _ _ h
      split at h
      · exact absurd h (by simp)
      · obtain ⟨textureArray, s6, h6, h⟩ := pbind_ok _ _ _ h
        simp only [Except.ok.injEq, Prod.mk.injEq] at h
        obtain ⟨hm, -⟩ := h
        subst hm
        exact readMeshTextures_shape storage _ [] s5 textureArray s6 h6
          (by simp)

/-- The mesh loop preserves representation consistency. -/
theorem readMeshes_shape (storage : List TextureEntry) (n : Nat) :
    ∀ acc s out s', readMeshes storage n acc s = .ok (out, s') →
    (∀ m ∈ acc, ∀ t ∈ m.textures, RepOK storage.length t) →
    ∀ m ∈ out, ∀ t ∈ m.textures, RepOK storage.length t := by
  induction n with
  | zero =>
    intro acc s out s' h hacc
    simp only [readMeshes, Except.ok.injEq, Prod.mk.injEq] at h
    obtain ⟨ho, -⟩ := h
    subst ho
    exact hacc
  | succ m ih =>
    intro acc s out s' h hacc
    unfold readMeshes at h
    obtain ⟨m0, s1, h1, h⟩ := pbind_ok _ _ _ h
    refine ih (acc ++ [m0]) s1 out s' h ?_
    intro mm hmm
    rcases List.mem_append.mp hmm with hm2 | hm2
    · exact hacc mm hm2
    · have := List.mem_singleton.mp hm2
      subst this
      exact readMesh_shape storage s mm s1 h1

/-- Every descriptor in a geometry loaded from the cache is representation
consistent with the decoded storage. -/
theorem loadCachedFile_shape (src : Option (List Cell)) (g : ModelGeometry)
    (h : loadCachedFile src = .ok g) :
    ∀ m ∈ g.meshes, ∀ t ∈ m.textures, RepOK g.textureStorage.length t := by
  cases src with
  | none => exact absurd h (by simp [loadCachedFile])
  | some s =>
    simp only [loadCachedFile] at h
    cases hr : readGeometry s with
    | error e => rw [hr] at h; exact absurd h (by simp)
    | ok p =>
      obtain ⟨g', s'⟩ := p
      rw [hr] at h
      simp only [Except.ok.injEq] at h
      subst h
      unfold readGeometry at hr
      obtain ⟨version, s1, h1, hr⟩ := pbind_ok _ _ _ hr
      split at hr
      · exact absurd hr (by simp)
      · obtain ⟨nTextureEntries, s2, h2, hr⟩ := pbind_ok _ _ _ hr
        obtain ⟨storage, s3, h3, hr⟩ := pbind_ok _ _ _ hr
        obtain ⟨nMeshes, s4, h4, hr⟩ := pbind_ok _ _ _ hr
        split at hr
        · exact absurd hr (by simp)
        · obtain ⟨meshes, s5, h5, hr⟩ := pbind_ok _ _ _ hr
          simp only [Except.ok.injEq, Prod.mk.injEq] at hr
          obtain ⟨hg, -⟩ := hr
          subst hg
          exact readMeshes_shape storage _ [] s4 meshes s5 h5 (by simp)

/-- Counterexample for C9 as stated: `loadCachedFile` happily returns a
geometry whose descriptor has both `hasTexture` and `useForcedColor` set,
because the two flags are decoded verbatim from the stream with no
exclusivity check. -/
theorem c9_counterexample_both_flags :
    loadCachedFile (some bothFlagsStream) = .ok bothFlagsGeometry ∧
    ∃ m ∈ bothFlagsGeometry.meshes, ∃ t ∈ m.textures,
      t.hasTexture = true ∧ t.useForcedColor = true := by
  refine ⟨rfl, ⟨_, List.mem_cons_self _ _, _, List.mem_cons_self _ _, rfl, rfl⟩⟩

/-- C9 (amended): every descriptor in a `loadModel` result has `hasTexture`
and `useForcedColor` mutually exclusive and exactly one representation
active (a storage reference exactly under `hasTexture`); every descriptor in
a `loadCachedFile` result has exactly one representation active, while its
two flags are decoded verbatim from the cache bytes. -/
theorem c9_descriptor_exclusivity :
    (∀ (loader : TexLoader) (readResult : Option aiScene) (force notify : Bool)
      (dir : String) (g : ModelGeometry),
      loadModel loader readResult force notify dir = .ok g →
      ∀ m ∈ g.meshes, ∀ t ∈ m.textures,
        ¬(t.hasTexture = true ∧ t.useForcedColor = true) ∧
        (t.hasTexture = true ↔ t.texture.isSome) ∧
        (t.hasTexture = false → t.texture = none)) ∧
    (∀ (src : Option (List Cell)) (g : ModelGeometry),
      loadCachedFile src = .ok g →
      ∀ m ∈ g.meshes, ∀ t ∈ m.textures,
        (t.hasTexture = true ↔ t.texture.isSome) ∧
        (t.hasTexture = false → t.texture = none)) := by
  constructor
  · intro loader readResult force notify dir g h m hm t ht
    obtain ⟨-, hd⟩ := loadModel_inv loader readResult force notify dir g h
    obtain ⟨-, hdesc⟩ := hd m hm
    obtain ⟨e1, e2, e3⟩ := hdesc t ht
    refine ⟨e3, ⟨?_, ?_⟩, e2⟩
    · intro hh
      obtain ⟨i, hi, -⟩ := e1 hh
      simp [hi]
    · intro hs
      cases hht : t.hasTexture with
      | true => rfl
      | false =>
        rw [e2 hht] at hs
        simp at hs
  · intro src g h m hm t ht
    obtain ⟨r1, r2⟩ := loadCachedFile_shape src g h m hm t ht
    refine ⟨⟨?_, ?_⟩, r2⟩
    · intro hh
      obtain ⟨i, hi, -⟩ := r1 hh
      simp [hi]
    · intro hs
      cases hht : t.hasTexture with
      | true => rfl
      | false =>
        rw [r2 hht] at hs
        simp at hs

/-- Witness for C9: the descriptor decoded from `zeroEntryStream` is
representation consistent. -/
theorem c9_descriptor_exclusivity_witness :
    ∃ g, loadCachedFile (some zeroEntryStream) = .ok g ∧
      ∀ m ∈ g.meshes, ∀ t ∈ m.textures,
        (t.hasTexture = true ↔ t.texture.isSome) ∧
        (t.hasTexture = false → t.texture = none) :=
  ⟨_, rfl, c9_descriptor_exclusivity.2 (some zeroEntryStream) _ rfl⟩

/-! ## Width conversions and the save path -/

/-- Below `2^31`, the `size_t` to `int32_t` narrowing is lossless. -/
theorem toInt32_eq (n : Nat) (h : n < 2 ^ 31) : toInt32 n = (n : Int) := by
  simp only [toInt32, Int.bmod]
  split <;> omega

/-- Below `2^31`, a narrowed non-zero count does not compare equal to 0. -/
theorem toInt32_beq_zero (n : Nat) (h0 : n ≠ 0) (h : n < 2 ^ 31) :
    (toInt32 n == 0) = false := by
  rw [toInt32_eq n h]
  simpa using h0

/-- Below `2^31`, the unsigned loop bound recovers the original count. -/
theorem loopCount_toInt32 (n : Nat) (h : n < 2 ^ 31) :
    loopCount (toInt32 n) = n := by
  rw [toInt32_eq n h]
  unfold loopCount
  omega

/-- A well-formed storage entry is written successfully. -/
theorem saveTextureEntry_ok (e : TextureEntry) (he : EntryWF e) :
    saveTextureEntry e = .ok
      [Cell.i32 (toInt32 e.name.length), Cell.strCell e.name,
        Cell.u32 e.texture.dimensions.x, Cell.u32 e.texture.dimensions.y,
        Cell.u32 e.texture.dimensions.z,
        Cell.strCell (formatToString e.texture.format),
        Cell.u32 e.texture.internalFormat,
        Cell.strCell (dataTypeToString e.texture.dataType),
        Cell.i32 (toInt32 e.texture.pixels.length),
        Cell.bytesCell e.texture.pixels] := by
  obtain ⟨h1, h2, h3, h4⟩ := he
  have hp : e.texture.pixels.length ≠ 0 := by
    simpa using h3
  simp only [saveTextureEntry]
  rw [toInt32_beq_zero _ h1 h2, toInt32_beq_zero _ hp h4]
  simp

set_option maxRecDepth 4000 in
/-- A list of well-formed storage entries is written successfully. -/
theorem saveTextureEntries_ok (l : List TextureEntry)
    (hl : ∀ e ∈ l, EntryWF e) :
    ∃ cells, saveTextureEntries l = .ok cells := by
  induction l with
  | nil => exact ⟨[], rfl⟩
  | cons e rest ih =>
    obtain ⟨cells, hc⟩ := ih (fun x hx => hl x (by simp [hx]))
    have hstep : saveTextureEntries (e :: rest) =
        seqCells (saveTextureEntry e) (saveTextureEntries rest) := rfl
    rw [hstep, saveTextureEntry_ok e (hl e (by simp)), hc]
    exact ⟨_, rfl⟩

/-- A descriptor whose type tag is non-empty and whose texture name (if any)
resolves in the storage is written successfully. -/
theorem saveMeshTexture_ok (storage : List TextureEntry)
    (t : ModelMesh.Texture) (h1 : t.type.length ≠ 0) (h2 : t.type.length < 2 ^ 31)
    (h3 : t.hasTexture = true →
      findEntryIdx storage (pointeeName storage t) ≠ none) :
    ∃ cells, saveMeshTexture storage t = .ok cells := by
  simp only [saveMeshTexture]
  rw [toInt32_beq_zero _ h1 h2]
  simp only [Bool.false_eq_true, if_false]
  cases hht : t.hasTexture with
  | false =>
    simp only [hht, Bool.false_eq_true, if_false]
    exact ⟨_, rfl⟩
  | true =>
    cases hf : findEntryIdx storage (pointeeName storage t) with
    | none => exact absurd hf (h3 hht)
    | some te =>
      simp only [hht, if_true, hf]
      exact ⟨_, rfl⟩

set_option maxRecDepth 4000 in
/-- The texture loop of the writer succeeds on well-formed descriptors. -/
theorem saveMeshTextures_ok (storage : List TextureEntry)
    (l : List ModelMesh.Texture)
    (hl : ∀ t ∈ l, t.type.length ≠ 0 ∧ t.type.length < 2 ^ 31 ∧
      (t.hasTexture = true →
        findEntryIdx storage (pointeeName storage t) ≠ none)) :
    ∃ cells, saveMeshTextures storage l = .ok cells := by
  induction l with
  | nil => exact ⟨[], rfl⟩
  | cons t rest ih =>
    obtain ⟨q1, q2, q3⟩ := hl t (by simp)
    obtain ⟨c1, hc1⟩ := saveMeshTexture_ok storage t q1 q2 q3
    obtain ⟨c2, hc2⟩ := ih (fun x hx => hl x (by simp [hx]))
    have hstep : saveMeshTextures storage (t :: rest) =
        seqCells (saveMeshTexture storage t) (saveMeshTextures storage rest) := rfl
    rw [hstep, hc1, hc2]
    exact ⟨_, rfl⟩

/-- One well-formed mesh is written successfully. -/
theorem saveMesh_ok (storage : List TextureEntry) (m : ModelMesh)
    (hv : m.vertices ≠ []) (hv2 : m.vertices.length < 2 ^ 31)
    (hi : m.indices ≠ []) (hi2 : m.indices.length < 2 ^ 31)
    (ht : m.textures ≠ []) (ht2 : m.textures.length < 2 ^ 31)
    (hts : ∀ t ∈ m.textures, t.type.length ≠ 0 ∧ t.type.length < 2 ^ 31 ∧
      (t.hasTexture = true →
        findEntryIdx storage (pointeeName storage t) ≠ none)) :
    ∃ cells, saveMesh storage m = .ok cells := by
  obtain ⟨tc, htc⟩ := saveMeshTextures_ok storage m.textures hts
  simp only [saveMesh]
  rw [toInt32_beq_zero _ (by simpa using hv) hv2,
    toInt32_beq_zero _ (by simpa using hi) hi2,
    toInt32_beq_zero _ (by simpa using ht) ht2, htc]
  simp only [Bool.false_eq_true, if_false]
  exact ⟨_, rfl⟩

set_option maxRecDepth 4000 in
/-- The mesh loop of the writer succeeds on well-formed meshes. -/
theorem saveMeshes_ok (storage : List TextureEntry) (l : List ModelMesh)
    (hl : ∀ m ∈ l, m.vertices ≠ [] ∧ m.vertices.length < 2 ^ 31 ∧
      m.indices ≠ [] ∧ m.indices.length < 2 ^ 31 ∧
      m.textures ≠ [] ∧ m.textures.length < 2 ^ 31 ∧
      ∀ t ∈ m.textures, t.type.length ≠ 0 ∧ t.type.length < 2 ^ 31 ∧
        (t.hasTexture = true →
          findEntryIdx storage (pointeeName storage t) ≠ none)) :
    ∃ cells, saveMeshes storage l = .ok cells := by
  induction l with
  | nil => exact ⟨[], rfl⟩
  | cons m rest ih =>
    obtain ⟨q1, q2, q3, q4, q5, q6, q7⟩ := hl m (by simp)
    obtain ⟨c1, hc1⟩ := saveMesh_ok storage m q1 q2 q3 q4 q5 q6 q7
    obtain ⟨c2, hc2⟩ := ih (fun x hx => hl x (by simp [hx]))
    have hstep : saveMeshes storage (m :: rest) =
        seqCells (saveMesh storage m) (saveMeshes storage rest) := rfl
    rw [hstep, hc1, hc2]
    exact ⟨_, rfl⟩

/-- `saveCachedFile` runs to completion on a well-formed geometry. -/
theorem saveCachedFile_ok (g : ModelGeometry) (h : SaveOK g) :
    ∃ cells, saveCachedFile true g = .ok cells := by
  obtain ⟨h1, h2, h3, h4⟩ := h
  obtain ⟨ec, hec⟩ := saveTextureEntries_ok g.textureStorage h3
  obtain ⟨mc, hmc⟩ := saveMeshes_ok g.textureStorage g.meshes h4
  simp only [saveCachedFile]
  rw [hec, toInt32_beq_zero _ (by simpa using h1) h2, hmc]
  simp only [Bool.not_true, Bool.false_eq_true, if_false]
  exact ⟨_, rfl⟩

/-- Counterexample for C10 as stated: a geometry with every required count
non-zero and an openable destination on which `saveCachedFile` still fails,
because its `hasTexture` descriptor's texture object name (`oak.png`)
matches no storage entry name in the write path's name scan. -/
theorem c10_counterexample_name_scan :
    saveCachedFile true badNameGeometry = .error .texNotFound ∧
    badNameGeometry.meshes ≠ [] ∧
    (∀ m ∈ badNameGeometry.meshes, m.vertices ≠ [] ∧ m.indices ≠ [] ∧
      m.textures ≠ [] ∧ ∀ t ∈ m.textures, t.type ≠ "") ∧
    (∀ e ∈ badNameGeometry.textureStorage, e.name ≠ "" ∧
      e.texture.pixels ≠ []) := by
  refine ⟨rfl, by decide, by decide, by decide⟩

/-- C10 (amended): `saveCachedFile` fails with `CacheWriteError` when the
destination cannot be opened, when a required count is zero (mesh count,
per-mesh vertex, index and texture counts, a texture-entry name length, a
type-tag length, or a pixel byte count — each shown at its error site), or
when a `hasTexture` descriptor's texture name resolves to no storage entry;
otherwise (non-zero in-range counts and resolvable names) it returns
success. -/
theorem c10_save_errors :
    (∀ g, saveCachedFile false g = .error .openFailed) ∧
    saveCachedFile true noMeshesGeometry = .error .noMeshes ∧
    saveCachedFile true emptyNameGeometry = .error .noTexName ∧
    saveCachedFile true emptyPixelsGeometry = .error .noTexSize ∧
    saveCachedFile true emptyVerticesGeometry = .error .noVertices ∧
    saveCachedFile true emptyIndicesGeometry = .error .noIndices ∧
    saveCachedFile true emptyTexturesGeometry = .error .noTextures ∧
    saveCachedFile true emptyTypeGeometry = .error .noTexType ∧
    (∀ g, SaveOK g → ∃ cells, saveCachedFile true g = .ok cells) := by
  exact ⟨fun g => rfl, rfl, rfl, rfl, rfl, rfl, rfl, rfl,
    fun g h => saveCachedFile_ok g h⟩

/-- Witness for C10: the example geometry is written successfully. -/
theorem c10_save_errors_witness :
    SaveOK exGeometry ∧ ∃ cells, saveCachedFile true exGeometry = .ok cells :=
  ⟨by unfold SaveOK EntryWF; decide,
    c10_save_errors.2.2.2.2.2.2.2.2 exGeometry (by unfold SaveOK EntryWF; decide)⟩

/-! ## Cache round trip -/

/-- The format tags written by the cache round-trip to their formats. -/
theorem stringToFormat_roundtrip (f : TexFormat) :
    stringToFormat (formatToString f) = .ok f := by
  cases f <;> rfl

/-- Every format tag is exactly four characters. -/
theorem formatToString_length (f : TexFormat) :
    ((formatToString f).length : Int) = 4 := by
  cases f <;> rfl

/-- The data-type tags written by the cache round-trip to their types. -/
theorem stringToDataType_roundtrip (d : GLDataType) :
    stringToDataType (dataTypeToString d) = .ok d := by
  cases d <;> rfl

/-- Every data-type tag is exactly four characters. -/
theorem dataTypeToString_length (d : GLDataType) :
    ((dataTypeToString d).length : Int) = 4 := by
  cases d <;> rfl

/-- `readI32` consumes exactly one matching cell. -/
theorem readI32_cons (v : Int) (rest : List Cell) :
    readI32 (Cell.i32 v :: rest) = .ok (v, rest) := rfl

/-- `readU32` consumes exactly one matching cell. -/
theorem readU32_cons (v : Nat) (rest : List Cell) :
    readU32 (Cell.u32 v :: rest) = .ok (v, rest) := rfl

/-- `readBool` consumes exactly one matching cell. -/
theorem readBool_cons (v : Bool) (rest : List Cell) :
    readBool (Cell.boolCell v :: rest) = .ok (v, rest) := rfl

/-- `readVtx` consumes exactly one matching cell. -/
theorem readVtx_cons (v : ModelMesh.Vertex) (rest : List Cell) :
    readVtx (Cell.vtx v :: rest) = .ok (v, rest) := rfl

/-- `readStr` succeeds on a string cell of the expected length. -/
theorem readStr_cons (n : Int) (s : String) (rest : List Cell)
    (h : ((s.length : Int) == n) = true) :
    readStr n (Cell.strCell s :: rest) = .ok (s, rest) := by
  show (if ((s.length : Int) == n) = true then _ else _) = _
  rw [h]
  simp

/-- `readBytes` succeeds on a byte cell of the expected length. -/
theorem readBytes_cons (n : Int) (bs : List Nat) (rest : List Cell)
    (h : ((bs.length : Int) == n) = true) :
    readBytes n (Cell.bytesCell bs :: rest) = .ok (bs, rest) := by
  show (if ((bs.length : Int) == n) = true then _ else _) = _
  rw [h]
  simp

/-- One successful `pbind` step, for rewriting reader chains. -/
theorem pbind_step {a b : Type} (v : a) (s : List Cell)
    (f : a → List Cell → Except LoadError (b × List Cell)) :
    pbind (.ok (v, s)) f = f v s := rfl

/-- A written texture entry reads back as its decoded form, leaving the rest
of the stream untouched. -/
theorem readTextureEntry_roundtrip (e : TextureEntry) (he : EntryWF e)
    (rest : List Cell) :
    readTextureEntry ([Cell.i32 (toInt32 e.name.length), Cell.strCell e.name,
      Cell.u32 e.texture.dimensions.x, Cell.u32 e.texture.dimensions.y,
      Cell.u32 e.texture.dimensions.z,
      Cell.strCell (formatToString e.texture.format),
      Cell.u32 e.texture.internalFormat,
      Cell.strCell (dataTypeToString e.texture.dataType),
      Cell.i32 (toInt32 e.texture.pixels.length),
      Cell.bytesCell e.texture.pixels] ++ rest) = .ok (decodedEntry e, rest) := by
  obtain ⟨h1, h2, h3, h4⟩ := he
  have hp : e.texture.pixels.length ≠ 0 := by simpa using h3
  have hn0 : (toInt32 e.name.length == 0) = false := toInt32_beq_zero _ h1 h2
  have hp0 : (toInt32 e.texture.pixels.length == 0) = false :=
    toInt32_beq_zero _ hp h4
  have hnl : ((e.name.length : Int) == toInt32 e.name.length) = true := by
    rw [toInt32_eq _ h2, beq_iff_eq]
  have hpl : ((e.texture.pixels.length : Int)
      == toInt32 e.texture.pixels.length) = true := by
    rw [toInt32_eq _ h4, beq_iff_eq]
  have hf : (((formatToString e.texture.format).length : Int) == (4 : Int))
      = true := by
    rw [beq_iff_eq]; exact formatToString_length _
  have hd : (((dataTypeToString e.texture.dataType).length : Int) == (4 : Int))
      = true := by
    rw [beq_iff_eq]; exact dataTypeToString_length _
  unfold readTextureEntry
  simp only [List.cons_append, List.nil_append]
  rw [readI32_cons, pbind_step, hn0, if_neg Bool.false_ne_true]
  rw [readStr_cons _ _ _ hnl, pbind_step]
  rw [readU32_cons, pbind_step]
  rw [readU32_cons, pbind_step]
  rw [readU32_cons, pbind_step]
  rw [readStr_cons _ _ _ hf, pbind_step]
  split
  · rename_i err heq
    rw [stringToFormat_roundtrip] at heq
    cases heq
  · rename_i format heq
    rw [stringToFormat_roundtrip] at heq
    cases heq
    rw [readU32_cons, pbind_step]
    rw [readStr_cons _ _ _ hd, pbind_step]
    split
    · rename_i err heq2
      rw [stringToDataType_roundtrip] at heq2
      cases heq2
    · rename_i dataType heq2
      rw [stringToDataType_roundtrip] at heq2
      cases heq2
      rw [readI32_cons, pbind_step, hp0, if_neg Bool.false_ne_true]
      rw [readBytes_cons _ _ _ hpl, pbind_step]
      rfl

/-- A written list of texture entries reads back as its decoded forms. -/
theorem saveTextureEntries_roundtrip (l : List TextureEntry)
    (hl : ∀ e ∈ l, EntryWF e) :
    ∃ cells, saveTextureEntries l = .ok cells ∧
      ∀ acc rest, readTextureEntries l.length acc (cells ++ rest) =
        .ok (acc ++ l.map decodedEntry, rest) := by
  induction l with
  | nil =>
    exact ⟨[], rfl, fun acc rest => by simp [readTextureEntries]⟩
  | cons e tail ih =>
    obtain ⟨cells, hc, hr⟩ := ih (fun x hx => hl x (by simp [hx]))
    have hwf := hl e (by simp)
    have hsave : saveTextureEntries (e :: tail) = .ok
        ([Cell.i32 (toInt32 e.name.length), Cell.strCell e.name,
          Cell.u32 e.texture.dimensions.x, Cell.u32 e.texture.dimensions.y,
          Cell.u32 e.texture.dimensions.z,
          Cell.strCell (formatToString e.texture.format),
          Cell.u32 e.texture.internalFormat,
          Cell.strCell (dataTypeToString e.texture.dataType),
          Cell.i32 (toInt32 e.texture.pixels.length),
          Cell.bytesCell e.texture.pixels] ++ cells) := by
      have hstep : saveTextureEntries (e :: tail) =
          seqCells (saveTextureEntry e) (saveTextureEntries tail) := rfl
      rw [hstep, saveTextureEntry_ok e hwf, hc]
      rfl
    refine ⟨_, hsave, ?_⟩
    intro acc rest
    show readTextureEntries (tail.length + 1) acc _ = _
    simp only [readTextureEntries]
    rw [List.append_assoc]
    rw [readTextureEntry_roundtrip e hwf (cells ++ rest)]
    simp only [pbind]
    rw [hr (acc ++ [decodedEntry e]) rest]
    simp

/-- Written vertices read back unchanged. -/
theorem readVertices_roundtrip (vs : List ModelMesh.Vertex)
    (acc : List ModelMesh.Vertex) (rest : List Cell) :
    readVertices vs.length acc (vs.map Cell.vtx ++ rest) =
      .ok (acc ++ vs, rest) := by
  induction vs generalizing acc with
  | nil => simp [readVertices]
  | cons v tail ih =>
    show readVertices (tail.length + 1) acc _ = _
    simp only [readVertices, pbind, List.map_cons, List.cons_append, readVtx]
    rw [ih (acc ++ [v])]
    simp

/-- Written indices read back unchanged. -/
theorem readIndices_roundtrip (xs : List Nat) (acc : List Nat)
    (rest : List Cell) :
    readIndices xs.length acc (xs.map Cell.u32 ++ rest) =
      .ok (acc ++ xs, rest) := by
  induction xs generalizing acc with
  | nil => simp [readIndices]
  | cons x tail ih =>
    show readIndices (tail.length + 1) acc _ = _
    simp only [readIndices, pbind, List.map_cons, List.cons_append, readU32]
    rw [ih (acc ++ [x])]
    simp

/-- `readF32` consumes exactly one matching cell. -/
theorem readF32_cons (v : Rat) (rest : List Cell) :
    readF32 (Cell.f32 v :: rest) = .ok (v, rest) := rfl

/-- `readI8` consumes exactly one matching cell. -/
theorem readI8_cons (v : Int) (rest : List Cell) :
    readI8 (Cell.i8 v :: rest) = .ok (v, rest) := rfl

/-- A written mesh texture descriptor reads back unchanged, provided the
storage entry names are pairwise distinct, each storage texture object
carries its entry's name, and the descriptor's reference is consistent with
its `hasTexture` flag: under those hypotheses the write path's name scan
returns exactly the referenced index. -/
theorem saveMeshTexture_roundtrip (storage rstorage : List TextureEntry)
    (t : ModelMesh.Texture)
    (hlen : rstorage.length = storage.length)
    (hnodup : (storage.map TextureEntry.name).Nodup)
    (hnames : ∀ e ∈ storage, e.texture.name = e.name)
    (ht1 : t.type.length ≠ 0) (ht2 : t.type.length < 2 ^ 31)
    (ht3 : t.hasTexture = true → ∃ i, t.texture = some i ∧ i < storage.length)
    (ht4 : t.hasTexture = false → t.texture = none) :
    ∃ cells, saveMeshTexture storage t = .ok cells ∧
      ∀ rest, readMeshTexture rstorage (cells ++ rest) = .ok (t, rest) := by
  have ht0 : (toInt32 t.type.length == 0) = false := toInt32_beq_zero _ ht1 ht2
  have htl : ((t.type.length : Int) == toInt32 t.type.length) = true := by
    rw [toInt32_eq _ ht2, beq_iff_eq]
  cases hht : t.hasTexture with
  | true =>
    obtain ⟨i, hi, hilt⟩ := ht3 hht
    have hmem : storage.getD i default ∈ storage := getD_mem_of_lt storage i hilt
    have hpn : pointeeName storage t = (storage.getD i default).name := by
      unfold pointeeName
      rw [hi]
      exact hnames _ hmem
    have hfind : findEntryIdx storage (pointeeName storage t) = some i := by
      rw [hpn]; exact findEntryIdx_self storage i hnodup hilt
    have hsave : saveMeshTexture storage t = .ok
        ([Cell.i32 (toInt32 t.type.length), Cell.strCell t.type,
          Cell.boolCell t.hasTexture, Cell.boolCell t.useForcedColor,
          Cell.f32 t.color.x, Cell.f32 t.color.y, Cell.f32 t.color.z] ++
          [Cell.u32 i]) := by
      simp only [saveMeshTexture, ht0, Bool.false_eq_true, if_false, hht,
        if_true, hfind]
    refine ⟨_, hsave, ?_⟩
    intro rest
    unfold readMeshTexture
    simp only [List.cons_append, List.nil_append]
    rw [readI32_cons, pbind_step, ht0, if_neg Bool.false_ne_true]
    rw [readStr_cons _ _ _ htl, pbind_step]
    rw [readBool_cons, pbind_step]
    rw [readBool_cons, pbind_step]
    rw [readF32_cons, pbind_step]
    rw [readF32_cons, pbind_step]
    rw [readF32_cons, pbind_step]
    rw [if_pos hht]
    rw [readU32_cons, pbind_step]
    rw [if_neg (by omega : ¬ i ≥ rstorage.length)]
    rw [← hi]
  | false =>
    have hnone := ht4 hht
    have hsave : saveMeshTexture storage t = .ok
        [Cell.i32 (toInt32 t.type.length), Cell.strCell t.type,
          Cell.boolCell t.hasTexture, Cell.boolCell t.useForcedColor,
          Cell.f32 t.color.x, Cell.f32 t.color.y, Cell.f32 t.color.z] := by
      simp only [saveMeshTexture, ht0, Bool.false_eq_true, if_false, hht]
    refine ⟨_, hsave, ?_⟩
    intro rest
    unfold readMeshTexture
    simp only [List.cons_append, List.nil_append]
    rw [readI32_cons, pbind_step, ht0, if_neg Bool.false_ne_true]
    rw [readStr_cons _ _ _ htl, pbind_step]
    rw [readBool_cons, pbind_step]
    rw [readBool_cons, pbind_step]
    rw [readF32_cons, pbind_step]
    rw [readF32_cons, pbind_step]
    rw [readF32_cons, pbind_step]
    rw [if_neg (by simp [hht] : ¬ t.hasTexture = true)]
    rw [← hnone]

/-- A written list of mesh texture descriptors reads back unchanged. -/
theorem saveMeshTextures_roundtrip (storage rstorage : List TextureEntry)
    (hlen : rstorage.length = storage.length)
    (hnodup : (storage.map TextureEntry.name).Nodup)
    (hnames : ∀ e ∈ storage, e.texture.name = e.name)
    (l : List ModelMesh.Texture)
    (hl : ∀ t ∈ l, t.type.length ≠ 0 ∧ t.type.length < 2 ^ 31 ∧
      (t.hasTexture = true → ∃ i, t.texture = some i ∧ i < storage.length) ∧
      (t.hasTexture = false → t.texture = none)) :
    ∃ cells, saveMeshTextures storage l = .ok cells ∧
      ∀ acc rest, readMeshTextures rstorage l.length acc (cells ++ rest) =
        .ok (acc ++ l, rest) := by
  induction l with
  | nil =>
    exact ⟨[], rfl, fun acc rest => by simp [readMeshTextures]⟩
  | cons t tail ih =>
    obtain ⟨cells, hc, hr⟩ := ih (fun x hx => hl x (by simp [hx]))
    obtain ⟨w1, w2, w3, w4⟩ := hl t (by simp)
    obtain ⟨ecells, hec, her⟩ :=
      saveMeshTexture_roundtrip storage rstorage t hlen hnodup hnames w1 w2 w3 w4
    have hsave : saveMeshTextures storage (t :: tail) = .ok (ecells ++ cells) := by
      show seqCells (saveMeshTexture storage t) (saveMeshTextures storage tail) = _
      rw [hec, hc]
      rfl
    refine ⟨_, hsave, ?_⟩
    intro acc rest
    show readMeshTextures rstorage (tail.length + 1) acc _ = _
    simp only [readMeshTextures]
    rw [List.append_assoc]
    rw [her (cells ++ rest)]
    rw [pbind_step]
    rw [hr (acc ++ [t]) rest]
    simp

/-- A written mesh reads back unchanged. -/
theorem saveMesh_roundtrip (storage rstorage : List TextureEntry)
    (hlen : rstorage.length = storage.length)
    (hnodup : (storage.map TextureEntry.name).Nodup)
    (hnames : ∀ e ∈ storage, e.texture.name = e.name)
    (m : ModelMesh)
    (hv1 : m.vertices ≠ []) (hv2 : m.vertices.length < 2 ^ 31)
    (hi1 : m.indices ≠ []) (hi2 : m.indices.length < 2 ^ 31)
    (ht1 : m.textures ≠ []) (ht2 : m.textures.length < 2 ^ 31)
    (htex : ∀ t ∈ m.textures, t.type.length ≠ 0 ∧ t.type.length < 2 ^ 31 ∧
      (t.hasTexture = true → ∃ i, t.texture = some i ∧ i < storage.length) ∧
      (t.hasTexture = false → t.texture = none)) :
    ∃ cells, saveMesh storage m = .ok cells ∧
      ∀ rest, readMesh rstorage (cells ++ rest) = .ok (m, rest) := by
  have hv0 : (toInt32 m.vertices.length == 0) = false :=
    toInt32_beq_zero _ (by simpa using hv1) hv2
  have hi0 : (toInt32 m.indices.length == 0) = false :=
    toInt32_beq_zero _ (by simpa using hi1) hi2
  have ht0 : (toInt32 m.textures.length == 0) = false :=
    toInt32_beq_zero _ (by simpa using ht1) ht2
  obtain ⟨tcells, htc, htr⟩ :=
    saveMeshTextures_roundtrip storage rstorage hlen hnodup hnames m.textures htex
  have hsave : saveMesh storage m = .ok
      ([Cell.i32 (toInt32 m.vertices.length)] ++ m.vertices.map Cell.vtx ++
        [Cell.i32 (toInt32 m.indices.length)] ++ m.indices.map Cell.u32 ++
        [Cell.i32 (toInt32 m.textures.length)] ++ tcells) := by
    simp only [saveMesh, hv0, hi0, ht0, Bool.false_eq_true, if_false, htc]
  refine ⟨_, hsave, ?_⟩
  intro rest
  unfold readMesh
  simp only [List.append_assoc, List.cons_append, List.nil_append]
  rw [readI32_cons, pbind_step, hv0, if_neg Bool.false_ne_true]
  rw [loopCount_toInt32 _ hv2]
  rw [readVertices_roundtrip m.vertices []]
  rw [pbind_step]
  rw [readI32_cons, pbind_step, hi0, if_neg Bool.false_ne_true]
  rw [loopCount_toInt32 _ hi2]
  rw [readIndices_roundtrip m.indices []]
  rw [pbind_step]
  rw [readI32_cons, pbind_step, ht0, if_neg Bool.false_ne_true]
  rw [loopCount_toInt32 _ ht2]
  rw [htr [] rest]
  rw [pbind_step]
  rfl

/-- A written list of meshes reads back unchanged. -/
theorem saveMeshes_roundtrip (storage rstorage : List TextureEntry)
    (hlen : rstorage.length = storage.length)
    (hnodup : (storage.map TextureEntry.name).Nodup)
    (hnames : ∀ e ∈ storage, e.texture.name = e.name)
    (l : List ModelMesh)
    (hl : ∀ m ∈ l, m.vertices ≠ [] ∧ m.vertices.length < 2 ^ 31 ∧
      m.indices ≠ [] ∧ m.indices.length < 2 ^ 31 ∧
      m.textures ≠ [] ∧ m.textures.length < 2 ^ 31 ∧
      ∀ t ∈ m.textures, t.type.length ≠ 0 ∧ t.type.length < 2 ^ 31 ∧
        (t.hasTexture = true → ∃ i, t.texture = some i ∧ i < storage.length) ∧
        (t.hasTexture = false → t.texture = none)) :
    ∃ cells, saveMeshes storage l = .ok cells ∧
      ∀ acc rest, readMeshes rstorage l.length acc (cells ++ rest) =
        .ok (acc ++ l, rest) := by
  induction l with
  | nil =>
    exact ⟨[], rfl, fun acc rest => by simp [readMeshes]⟩
  | cons m tail ih =>
    obtain ⟨cells, hc, hr⟩ := ih (fun x hx => hl x (by simp [hx]))
    obtain ⟨w1, w2, w3, w4, w5, w6, w7⟩ := hl m (by simp)
    obtain ⟨ecells, hec, her⟩ :=
      saveMesh_roundtrip storage rstorage hlen hnodup hnames m w1 w2 w3 w4 w5 w6 w7
    have hsave : saveMeshes storage (m :: tail) = .ok (ecells ++ cells) := by
      show seqCells (saveMesh storage m) (saveMeshes storage tail) = _
      rw [hec, hc]
      rfl
    refine ⟨_, hsave, ?_⟩
    intro acc rest
    show readMeshes rstorage (tail.length + 1) acc _ = _
    simp only [readMeshes]
    rw [List.append_assoc]
    rw [her (cells ++ rest)]
    rw [pbind_step]
    rw [hr (acc ++ [m]) rest]
    simp

/-- A successful parse of the whole stream is a successful load. -/
theorem loadCachedFile_of_readGeometry (s : List Cell) (g : ModelGeometry)
    (leftover : List Cell) (h : readGeometry s = .ok (g, leftover)) :
    loadCachedFile (some s) = .ok g := by
  simp only [loadCachedFile, h]

/-- Claim C1 (amended): for a well-formed geometry — non-empty mesh list,
per-mesh non-empty vertex, index and texture lists, non-empty name and type
tags, all counts within `int32` range, pairwise-distinct storage entry
names, each storage texture object carrying its entry's name, and every
descriptor reference consistent with its `hasTexture` flag — `saveCachedFile`
succeeds and `loadCachedFile` on its output reproduces the geometry:
meshes (vertices, indices and every texture descriptor including its
storage reference) are byte-for-byte identical, and each storage entry is
reproduced as its `decodedEntry` (same stored name, dimensions, format,
internal format, data type and pixel bytes).  The name-uniqueness and
name-consistency hypotheses are what make the write path's name scan agree
with the read path's stored-index resolution. -/
theorem c1_cache_roundtrip (g : ModelGeometry) (h : CacheWF g) :
    ∃ cells, saveCachedFile true g = .ok cells ∧
      loadCachedFile (some cells) =
        .ok ⟨g.meshes, g.textureStorage.map decodedEntry⟩ := by
  obtain ⟨hm1, hm2, hs2, hse, hnodup, hmesh⟩ := h
  have hnames : ∀ e ∈ g.textureStorage, e.texture.name = e.name :=
    fun e he => (hse e he).2
  have hm0 : (toInt32 g.meshes.length == 0) = false :=
    toInt32_beq_zero _ (by simpa using hm1) hm2
  obtain ⟨ecells, hec, her⟩ :=
    saveTextureEntries_roundtrip g.textureStorage (fun e he => (hse e he).1)
  have hlen : (g.textureStorage.map decodedEntry).length =
      g.textureStorage.length := by
    simp
  obtain ⟨mcells, hmc, hmr⟩ :=
    saveMeshes_roundtrip g.textureStorage (g.textureStorage.map decodedEntry)
      hlen hnodup hnames g.meshes hmesh
  have hsave : saveCachedFile true g = .ok
      ([Cell.i8 CurrentCacheVersion,
        Cell.i32 (toInt32 g.textureStorage.length)] ++ ecells ++
        [Cell.i32 (toInt32 g.meshes.length)] ++ mcells) := by
    simp only [saveCachedFile, Bool.not_true, Bool.false_eq_true, if_false,
      hec, hm0, hmc]
  have her0 : ∀ rest, readTextureEntries g.textureStorage.length []
      (ecells ++ rest) = .ok (g.textureStorage.map decodedEntry, rest) := by
    intro rest
    rw [her [] rest]
    simp
  have hmr0 : ∀ rest, readMeshes (g.textureStorage.map decodedEntry)
      g.meshes.length [] (mcells ++ rest) = .ok (g.meshes, rest) := by
    intro rest
    rw [hmr [] rest]
    simp
  have hveq : (CurrentCacheVersion != CurrentCacheVersion) = false := rfl
  have hgeom : ∀ rest, readGeometry
      (([Cell.i8 CurrentCacheVersion,
        Cell.i32 (toInt32 g.textureStorage.length)] ++ ecells ++
        [Cell.i32 (toInt32 g.meshes.length)] ++ mcells) ++ rest) =
      .ok (⟨g.meshes, g.textureStorage.map decodedEntry⟩, rest) := by
    intro rest
    unfold readGeometry
    simp only [List.append_assoc, List.cons_append, List.nil_append]
    rw [readI8_cons, pbind_step, hveq, if_neg Bool.false_ne_true]
    rw [readI32_cons, pbind_step]
    rw [loopCount_toInt32 _ hs2]
    rw [her0 (Cell.i32 (toInt32 g.meshes.length) :: (mcells ++ rest))]
    rw [pbind_step]
    rw [readI32_cons, pbind_step, hm0, if_neg Bool.false_ne_true]
    rw [loopCount_toInt32 _ hm2]
    rw [hmr0 rest]
    rw [pbind_step]
  have hread : readGeometry
      ([Cell.i8 CurrentCacheVersion,
        Cell.i32 (toInt32 g.textureStorage.length)] ++ ecells ++
        [Cell.i32 (toInt32 g.meshes.length)] ++ mcells) =
      .ok (⟨g.meshes, g.textureStorage.map decodedEntry⟩, []) := by
    have hx := hgeom []
    rwa [List.append_nil] at hx
  exact ⟨_, hsave, loadCachedFile_of_readGeometry _ _ _ hread⟩

/-- Witness for C1: the example one-mesh one-entry geometry is well formed
and round-trips through the cache. -/
theorem c1_cache_roundtrip_witness :
    CacheWF exGeometry ∧
    ∃ cells, saveCachedFile true exGeometry = .ok cells ∧
      loadCachedFile (some cells) =
        .ok ⟨exGeometry.meshes, exGeometry.textureStorage.map decodedEntry⟩ :=
  ⟨by unfold CacheWF EntryWF; decide,
    c1_cache_roundtrip exGeometry (by unfold CacheWF EntryWF; decide)⟩

/-- Counterexample to C1 as stated: on a geometry with two storage entries
sharing one name, save and load both succeed, but the write path's
first-match name scan rebinds the mesh descriptor — the original references
storage entry 1, the decoded geometry references entry 0, so the decoded
`hasTexture` descriptor does not reference the same storage entry as the
original. -/
theorem c1_counterexample_name_rebinding :
    ∃ cells g2,
      saveCachedFile true dupNameGeometry = .ok cells ∧
      loadCachedFile (some cells) = .ok g2 ∧
      ((dupNameGeometry.meshes.getD 0 default).textures.getD 0
        default).texture = some 1 ∧
      ((g2.meshes.getD 0 default).textures.getD 0 default).texture = some 0 :=
  ⟨_, _, rfl, rfl, rfl, rfl⟩

/-- Witness for C8: the invisible mesh of `invisibleScene`, processed under
`forceRenderInvisible`, is kept with exactly the forced descriptor. -/
theorem c8_invisible_mesh_policy_witness :
    processMesh failLoader (invisibleScene.mMeshes.getD 0 default)
        invisibleScene Mat4.identity [] "" =
      ((processMesh failLoader (invisibleScene.mMeshes.getD 0 default)
        invisibleScene Mat4.identity [] "").1,
       (processMesh failLoader (invisibleScene.mMeshes.getD 0 default)
        invisibleScene Mat4.identity [] "").2) ∧
    (processMesh failLoader (invisibleScene.mMeshes.getD 0 default)
      invisibleScene Mat4.identity [] "").1.textures = [] ∧
    processNodeMeshes failLoader invisibleScene Mat4.identity true false ""
        [0] ([], [], []) =
      processNodeMeshes failLoader invisibleScene Mat4.identity true false ""
        []
        ([] ++ [{ (processMesh failLoader (invisibleScene.mMeshes.getD 0
            default) invisibleScene Mat4.identity [] "").1 with
          textures := [forcedInvisibleTexture] }],
          (processMesh failLoader (invisibleScene.mMeshes.getD 0 default)
            invisibleScene Mat4.identity [] "").2, []) :=
  ⟨rfl, rfl,
    c8_invisible_mesh_policy.1 failLoader invisibleScene Mat4.identity false ""
      0 [] [] [] []
      (processMesh failLoader (invisibleScene.mMeshes.getD 0 default)
        invisibleScene Mat4.identity [] "").1
      (processMesh failLoader (invisibleScene.mMeshes.getD 0 default)
        invisibleScene Mat4.identity [] "").2
      rfl rfl⟩

end Ghoul
